import Mathlib

/-!
# FleetSmart Analytics — verification of the data-cleaning, scoring and alerting engine

Shallow embedding of the core engine of the FleetSmart logistics dashboard:

* `Data_preprocessing.py` (`DataPreprocessor.clean_table`, `_fix_dates`,
  `_handle_missing`) — a generic table model with column metadata and cells;
* `Operational_Efficiency.py` (`OperationalAnalyzer._prepare_data`, `get_kpis`,
  `get_alerts`, `show_dashboard` efficiency score);
* `driver_analyzer.py` (`DriverPerformanceAnalyzer` leaderboard score, KPIs, alerts);
* `fuel_maintenance.py` (`FuelMaintenanceAnalyzer.get_high_risk_trucks`, `get_alerts`);
* `alerts_engine.py` (`AlertsEngine.set_threshold`, `get_all_alerts`).

Machine reals are modelled by `ℚ`; pandas timestamps by `Int` (minutes since an
arbitrary epoch); a missing value (`NaN`/`NaT`/`None`) by `Option`.  The external
pandas date parser (`pd.to_datetime`), the numeric-to-timestamp conversion it
performs on numeric columns, and the calendar month truncation (`dt.to_period`)
are parameters of the development, since their behaviour lives outside the
repository.  Dataframes with rows dropped are re-indexed contiguously in the
source (`reset_index(drop=True)`); lists model exactly that.
-/

namespace FleetSmart

/-! ## Generic table model (for `Data_preprocessing.py`) -/

/-- Storage type of a pandas column, as the source distinguishes them:
`np.issubdtype(dtype, np.number)` (numeric), `dtype.kind in 'ObSU'` (textual /
object), and `datetime64` (produced by `pd.to_datetime`). -/
inductive DType
  | numeric
  | text
  | datetime
deriving DecidableEq, Repr

/-- A cell of a dataframe: a missing value (`NaN`/`NaT`/`None`), a number,
a string, or a timestamp. -/
inductive Cell
  | null
  | num (q : ℚ)
  | str (s : String)
  | dt (t : Int)
deriving DecidableEq, Repr

/-- A column header: name plus storage type. -/
structure ColMeta where
  name : String
  dtype : DType
deriving DecidableEq, Repr

/-- A dataframe: a header and a list of rows (row-major). -/
structure Table where
  header : List ColMeta
  rows : List (List Cell)
deriving DecidableEq, Repr

/-! ### Column-name canonicalization

`df.columns = [col.strip().lower().replace(' ', '_').replace('-', '_') ...]`
(`Data_preprocessing.py`, `clean_table` step 1).  Implemented on `List Char`
so that Python's `strip` (drop leading/trailing whitespace) is explicit;
`lower` is modelled on the ASCII range. -/

/-- Whitespace characters removed by Python's `str.strip()`. -/
def pyIsSpace (c : Char) : Bool :=
  c = ' ' || c = '\t' || c = '\n' || c = '\r' || c = '\x0b' || c = '\x0c'

/-- ASCII lower-casing of one character (Python `str.lower`). -/
def pyLowerChar (c : Char) : Char :=
  if 'A' ≤ c ∧ c ≤ 'Z' then Char.ofNat (c.toNat + 32) else c

/-- The two `str.replace` calls: spaces and hyphens become underscores. -/
def replChar (c : Char) : Char :=
  if c = ' ' ∨ c = '-' then '_' else c

/-- Python `str.strip()` on a character list. -/
def stripChars (l : List Char) : List Char :=
  ((l.dropWhile pyIsSpace).reverse.dropWhile pyIsSpace).reverse

/-- `col.strip().lower().replace(' ', '_').replace('-', '_')` on characters. -/
def canonChars (l : List Char) : List Char :=
  (stripChars l).map (fun c => replChar (pyLowerChar c))

/-- Canonical form of a column name. -/
def canonName (s : String) : String :=
  ⟨canonChars s.data⟩

/-- Step 1 of `clean_table`: canonicalize every column name. -/
def renameCols (t : Table) : Table :=
  { header := t.header.map (fun m => { m with name := canonName m.name }),
    rows := t.rows }

/-! ### Date coercion (`_fix_dates`) -/

/-- `date_keywords = ['date', 'time', 'year', 'dt', 'timestamp']`. -/
def dateKeywords : List String := ["date", "time", "year", "dt", "timestamp"]

/-- Does `small` occur at the head of `big`? -/
def startsWithL : List Char → List Char → Bool
  | _, [] => true
  | [], _ :: _ => false
  | c :: cs, d :: ds => c = d && startsWithL cs ds

/-- Does `small` occur as a contiguous run inside `big`? -/
def hasSubL (big small : List Char) : Bool :=
  match big with
  | [] => small.isEmpty
  | _ :: cs => startsWithL big small || hasSubL cs small

/-- ASCII lower-casing of a full string (`col.lower()`). -/
def lowerStr (s : String) : String :=
  ⟨s.data.map pyLowerChar⟩

/-- `any(keyword in col.lower() for keyword in date_keywords)`. -/
def isDateName (s : String) : Bool :=
  dateKeywords.any (fun k => hasSubL (lowerStr s).data k.data)

/-- What `pd.to_datetime(col, errors='coerce')` does to one cell of a column
of the given storage type.  `parse` is the external string parser (a failed
parse yields `none`, i.e. `NaT`); `numToTs` is the numeric-to-timestamp
conversion pandas applies to numbers.  A column that is already `datetime64`
is returned unchanged. -/
def toDatetimeCell (parse : String → Option Int) (numToTs : ℚ → Int)
    (d : DType) (c : Cell) : Cell :=
  match d with
  | .datetime => c
  | _ =>
    match c with
    | .null => .null
    | .num q => .dt (numToTs q)
    | .str s => (parse s).elim .null .dt
    | .dt t => .dt t

/-- Header after `_fix_dates`: a column whose name contains a date keyword gets
storage type `datetime64`. -/
def fixDatesHeader (h : List ColMeta) : List ColMeta :=
  h.map (fun m => if isDateName m.name then { m with dtype := .datetime } else m)

/-- One row after `_fix_dates`. -/
def fixDatesRow (parse : String → Option Int) (numToTs : ℚ → Int)
    (h : List ColMeta) (r : List Cell) : List Cell :=
  List.zipWith
    (fun m c => if isDateName m.name then toDatetimeCell parse numToTs m.dtype c else c)
    h r

/-- `_fix_dates`: every column whose (lower-cased) name contains one of the
date keywords is passed through `pd.to_datetime(..., errors='coerce')`,
regardless of its storage type. -/
def fixDates (parse : String → Option Int) (numToTs : ℚ → Int) (t : Table) : Table :=
  { header := fixDatesHeader t.header,
    rows := t.rows.map (fixDatesRow parse numToTs t.header) }

/-! ### Missing-value handling (`_handle_missing`) -/

/-- The numeric payload of a cell, if any. -/
def cellNumVal : Cell → Option ℚ
  | .num q => some q
  | _ => none

/-- The cells of column `j` (rows shorter than `j` contribute nothing). -/
def colCells (rows : List (List Cell)) (j : Nat) : List Cell :=
  rows.filterMap (fun r => r[j]?)

/-- The non-null numeric values of column `j`. -/
def colNumVals (rows : List (List Cell)) (j : Nat) : List ℚ :=
  (colCells rows j).filterMap cellNumVal

/-- `df[col].isnull().sum() > 0` for column `j`. -/
def colHasNull (rows : List (List Cell)) (j : Nat) : Bool :=
  (colCells rows j).any (fun c => c = .null)

/-- Mean of a list of rationals (`df[col].mean()` over the non-null values). -/
def meanList (l : List ℚ) : ℚ :=
  l.sum / l.length

/-- The value used to fill column `j`, when the source fills it: the column
must be numeric, have at least one missing value (`missing > 0`) and at least
one non-null value (otherwise the mean is `NaN` and `fillna` is a no-op). -/
def fillValue (h : List ColMeta) (rows : List (List Cell)) (j : Nat) : Option ℚ :=
  match h[j]? with
  | some m =>
    if m.dtype = .numeric ∧ colHasNull rows j ∧ colNumVals rows j ≠ [] then
      some (meanList (colNumVals rows j))
    else none
  | none => none

/-- `fillna(mean)` on one cell: a null becomes the fill value when the column
is being filled; every other cell is unchanged. -/
def fillCell (v : Option ℚ) (c : Cell) : Cell :=
  match v, c with
  | some m, .null => Cell.num m
  | _, c => c

/-- Numeric step of `_handle_missing`: nulls of each numeric column are
replaced by that column's mean of non-null values. -/
def imputeRows (h : List ColMeta) (rows : List (List Cell)) : List (List Cell) :=
  let fv := (List.range h.length).map (fillValue h rows)
  rows.map (fun r => List.zipWith fillCell fv r)

/-- `df[categorical_cols].isnull().any(axis=1)` for one row. -/
def rowHasTextNull (h : List ColMeta) (r : List Cell) : Bool :=
  (h.zip r).any (fun p => p.1.dtype = .text && p.2 = .null)

/-- Categorical step of `_handle_missing`: drop every row with a null in any
text column. -/
def dropCatNullRows (h : List ColMeta) (rows : List (List Cell)) : List (List Cell) :=
  rows.filter (fun r => !rowHasTextNull h r)

/-- `_handle_missing`: numeric mean-imputation, then categorical row dropping. -/
def handleMissing (t : Table) : Table :=
  { header := t.header,
    rows := dropCatNullRows t.header (imputeRows t.header t.rows) }

/-! ### De-duplication (`drop_duplicates`) -/

/-- Keep the first occurrence of each row (`df.drop_duplicates()`),
accumulating the rows already seen. -/
def dedupAux {α : Type} [DecidableEq α] (seen : List α) : List α → List α
  | [] => []
  | r :: rs => if r ∈ seen then dedupAux seen rs else r :: dedupAux (r :: seen) rs

/-- `df.drop_duplicates().reset_index(drop=True)`. -/
def dedupRows {α : Type} [DecidableEq α] (rows : List α) : List α :=
  dedupAux [] rows

/-- `clean_table`: canonicalize names, coerce dates, handle missing values,
drop duplicates, reset index. -/
def cleanTable (parse : String → Option Int) (numToTs : ℚ → Int) (t : Table) : Table :=
  let t1 := renameCols t
  let t2 := fixDates parse numToTs t1
  let t3 := handleMissing t2
  { header := t3.header, rows := dedupRows t3.rows }

/-! ## Rounding and formatting

`Series.round(1)` (numpy) rounds half to even; `%.1f` formatting in the alert
messages does the same.  Both are modelled by `roundHalfEven`. -/

/-- Round half to even (numpy / IEEE default rounding of `.round()`). -/
def roundHalfEven (q : ℚ) : Int :=
  let f := ⌊q⌋
  let r := q - f
  if r < 1 / 2 then f
  else if (1 : ℚ) / 2 < r then f + 1
  else if f % 2 = 0 then f else f + 1

/-- `Series.round(1)`: round to one decimal place, half to even. -/
def roundTo1 (q : ℚ) : ℚ :=
  (roundHalfEven (q * 10) : ℚ) / 10

/-- `f"{q:.1f}"`: decimal rendering with one fractional digit. -/
def fmt1 (q : ℚ) : String :=
  let n := roundHalfEven (q * 10)
  (if n < 0 then "-" else "") ++ toString (n.natAbs / 10) ++ "." ++ toString (n.natAbs % 10)

/-- `f"{q:,.0f}"` without the thousands separator (the separator never affects
any property proved here). -/
def fmt0 (q : ℚ) : String :=
  let n := roundHalfEven q
  (if n < 0 then "-" else "") ++ toString n.natAbs

/-- Mean of a list of rationals, `NaN` (= `none`) on an empty list, as
`Series.mean()` behaves after skipping nulls. -/
def meanOpt (l : List ℚ) : Option ℚ :=
  if l = [] then none else some (meanList l)

/-- `x < c` where `x` may be `NaN`: any comparison with `NaN` is false. -/
def optLt (x : Option ℚ) (c : ℚ) : Bool :=
  match x with
  | some v => decide (v < c)
  | none => false

/-- `x > c` where `x` may be `NaN`. -/
def optGt (x : Option ℚ) (c : ℚ) : Bool :=
  match x with
  | some v => decide (v > c)
  | none => false

/-! ## Efficiency scores (`Operational_Efficiency.show_dashboard`,
`driver_analyzer.get_leaderboard_df`) -/

/-- Driver efficiency score of the operational dashboard
(`Operational_Efficiency.py` lines 174–188, all three component columns
present): `(10 - idle.clip(upper=10)) * 3 + mpg * 2 + on_time_rate * 30`. -/
def effScoreDash (idle mpg otd : ℚ) : ℚ :=
  (10 - min idle 10) * 3 + mpg * 2 + otd * 30

/-- Driver leaderboard score (`driver_analyzer.py` lines 174–180):
`(revenue/1000*0.5 + mpg*4 + otd*100*0.4 - idle*3 - incidents*15).round(1)`. -/
def leaderboardScoreRaw (rev mpg otd idle inc : ℚ) : ℚ :=
  rev / 1000 * (1 / 2) + mpg * 4 + otd * 100 * (2 / 5) - idle * 3 - inc * 15

/-- The leaderboard score as displayed: the raw linear combination rounded to
one decimal (`.round(1)`). -/
def leaderboardScore (rev mpg otd idle inc : ℚ) : ℚ :=
  roundTo1 (leaderboardScoreRaw rev mpg otd idle inc)

/-! ## Maintenance-risk classification (`fuel_maintenance.get_high_risk_trucks`) -/

/-- A truck row (`trucks` table), with the columns the risk classification
reads. -/
structure TruckRow where
  truck_id : Int
  model_year : Int
  odometer_reading : ℚ
deriving DecidableEq, Repr

/-- Risk tier of a truck. -/
inductive Risk
  | low
  | medium
  | high
deriving DecidableEq, Repr

/-- Display string of a risk tier (`'Risk Level'` column values). -/
def riskStr : Risk → String
  | .low => "Low"
  | .medium => "Medium"
  | .high => "High"

/-- The `.loc` assignment sequence of `get_high_risk_trucks`: start at `Low`,
overwrite with `Medium` where high-mileage OR high-age, overwrite with `High`
where high-mileage AND high-age; `Age = current_year - model_year`, strict
comparisons against the thresholds. -/
def truckRisk (currentYear : Int) (mileTh : ℚ) (ageTh : Int) (t : TruckRow) : Risk :=
  let age := currentYear - t.model_year
  let hm := decide (t.odometer_reading > mileTh)
  let ha := decide (age > ageTh)
  let r := Risk.low
  let r := if hm || ha then Risk.medium else r
  if hm && ha then Risk.high else r

/-! ## Generic list helpers shared by the analyzers -/

/-- Stable insertion of `a` before the first element `b` with `le a b`. -/
def insertBy {α : Type} (le : α → α → Bool) (a : α) : List α → List α
  | [] => [a]
  | b :: bs => if le a b then a :: b :: bs else b :: insertBy le a bs

/-- Stable sort: an element coming earlier stays before later elements it
ties with (Python's `list.sort` / pandas sorts used on small key spaces). -/
def isortBy {α : Type} (le : α → α → Bool) (l : List α) : List α :=
  l.foldr (insertBy le) []

/-- Lexicographic `≤` on character lists (Python string comparison). -/
def strLeL : List Char → List Char → Bool
  | [], _ => true
  | _ :: _, [] => false
  | c :: cs, d :: ds => if c = d then strLeL cs ds else decide (c < d)

/-- Lexicographic `≤` on strings. -/
def strLe (s t : String) : Bool :=
  strLeL s.data t.data

/-- Largest element of a list of naturals (`Series.max()` on counts). -/
def maxList (l : List Nat) : Nat :=
  l.foldr max 0

/-- Mean of a list of booleans as a rational (`Series.mean()` on a boolean
column). -/
def boolMean (l : List Bool) : ℚ :=
  ((l.filter id).length : ℚ) / l.length

/-- Pandas left merge: every left row survives; a left row with several key
matches on the right is duplicated, one output row per match, in right-table
order; a left row with no match is paired with nulls. -/
def leftMerge {α β : Type} (ls : List α) (rs : List β) (key : α → β → Bool) :
    List (α × Option β) :=
  ls.flatMap (fun a =>
    match rs.filter (key a) with
    | [] => [(a, none)]
    | ms => ms.map (fun b => (a, some b)))

/-! ## Source tables of the analyzers (`§3` of the data model) -/

/-- A `trips` row (columns read by the operational pipeline). -/
structure TripRow where
  trip_id : Int
  load_id : Int
  driver_id : Int
  truck_id : Int
  route_id : Int
  dispatch_date : Option Int
deriving DecidableEq, Repr

/-- A `loads` row. -/
structure LoadRow where
  load_id : Int
  revenue : ℚ
deriving DecidableEq, Repr

/-- A `delivery_events` row; the two timestamps may be `NaT`. -/
structure EventRow where
  load_id : Int
  trip_id : Int
  scheduled_datetime : Option Int
  actual_datetime : Option Int
deriving DecidableEq, Repr

/-- A `routes` row. -/
structure RouteRow where
  route_id : Int
  origin_city : Option String
  destination_city : Option String
deriving DecidableEq, Repr

/-- A `driver_monthly_metrics` row; the metric cells may be null. -/
structure DmmRow where
  driver_id : Int
  month : Option Int
  total_revenue : Option ℚ
  average_mpg : Option ℚ
  average_idle_hours : Option ℚ
  on_time_delivery_rate : Option ℚ
deriving DecidableEq, Repr

/-- The `driver_monthly_metrics` table with its optional-column flags
(`'average_idle_hours' in driver_monthly.columns` probing in the source). -/
structure DmmTable where
  rows : List DmmRow
  hasRevenue : Bool
  hasMpg : Bool
  hasIdle : Bool
  hasOtd : Bool
deriving DecidableEq, Repr

/-- A `truck_utilization_metrics` row. -/
structure TumRow where
  truck_id : Int
  month : Option Int
  utilization_rate : Option ℚ
  downtime_hours : Option ℚ
  average_mpg : Option ℚ
deriving DecidableEq, Repr

/-- The `truck_utilization_metrics` table with its optional-column flags. -/
structure TumTable where
  rows : List TumRow
  hasUtil : Bool
  hasDowntime : Bool
  hasMpg : Bool
deriving DecidableEq, Repr

/-- A `drivers` row (name columns may hold nulls). -/
structure DriverRow where
  driver_id : Int
  first_name : Option String
  last_name : Option String
deriving DecidableEq, Repr

/-- A `safety_incidents` row (only the driver key is read by the alerts). -/
structure IncidentRow where
  driver_id : Int
deriving DecidableEq, Repr

/-- A `fuel_purchases` row. -/
structure FuelRow where
  truck_id : Int
  gallons : ℚ
  total_cost : ℚ
  price_per_gallon : ℚ
deriving DecidableEq, Repr

/-- A `maintenance_records` row. -/
structure MaintRow where
  truck_id : Int
  total_cost : ℚ
  downtime_hours : Option ℚ
deriving DecidableEq, Repr

/-- The dictionary of cleaned tables handed to every analyzer
(`self.data`); a `none` table is one `data.get(name)` returns `None` for. -/
structure DataDict where
  trips : Option (List TripRow)
  loads : Option (List LoadRow)
  delivery_events : Option (List EventRow)
  routes : Option (List RouteRow)
  driver_monthly_metrics : Option DmmTable
  truck_utilization_metrics : Option TumTable
  drivers : Option (List DriverRow)
  safety_incidents : Option (List IncidentRow)
  fuel_purchases : Option (List FuelRow)
  maintenance_records : Option (List MaintRow)
  trucks : Option (List TruckRow)
deriving DecidableEq, Repr

/-! ## Operational pipeline (`Operational_Efficiency._prepare_data`) -/

/-- The on-time flag with 30-minute grace
(`np.where(actual.notna() & scheduled.notna(), actual <= scheduled + 30min, False)`,
`Operational_Efficiency.py` lines 45–49).  Timestamps are minutes, so the
grace period is `+ 30`. -/
def onTimeFlag (sched actual : Option Int) : Bool :=
  match actual, sched with
  | some a, some s => decide (a ≤ s + 30)
  | _, _ => false

/-- `origin.fillna('Unknown') + " to " + destination.fillna('Unknown')`. -/
def routeName (ro : Option RouteRow) : String :=
  ((ro.bind (·.origin_city)).getD "Unknown") ++ " to " ++
    ((ro.bind (·.destination_city)).getD "Unknown")

/-- One row of the joined operational fact view. -/
structure OpRow where
  trip : TripRow
  load : Option LoadRow
  event : Option EventRow
  route : Option RouteRow
  on_time : Bool
  route_name : String
  month : Option Int
  idle : Option ℚ
  mpg : Option ℚ
  util : Option ℚ
  downtime : Option ℚ
deriving DecidableEq, Repr

/-- The joined operational view, with flags recording which optional monthly
metric columns were actually merged in. -/
structure OpView where
  rows : List OpRow
  hasIdleCol : Bool
  hasMpgCol : Bool
  hasUtilCol : Bool
  hasDowntimeCol : Bool
deriving DecidableEq, Repr

/-- The `pd.DataFrame()` returned when a core table is missing or empty. -/
def emptyOpView : OpView :=
  { rows := [], hasIdleCol := false, hasMpgCol := false,
    hasUtilCol := false, hasDowntimeCol := false }

/-- Equality of month keys where either may be missing (`NaN` join keys never
match in pandas). -/
def monthEq (a b : Option Int) : Bool :=
  match a, b with
  | some x, some y => x == y
  | _, _ => false

/-- Left merge of `driver_monthly_metrics[driver_cols]` onto the view, on
`['driver_id', 'month']`. -/
def mergeDriverMonthly (monthOf : Int → Int) (dmm : DmmTable) (rows : List OpRow) :
    List OpRow :=
  rows.flatMap (fun r =>
    match dmm.rows.filter
        (fun g => g.driver_id == r.trip.driver_id && monthEq (g.month.map monthOf) r.month) with
    | [] => [r]
    | ms => ms.map (fun g =>
        { r with
          idle := if dmm.hasIdle then g.average_idle_hours else r.idle,
          mpg := if dmm.hasMpg then g.average_mpg else r.mpg }))

/-- Left merge of `truck_utilization_metrics[truck_cols]` onto the view, on
`['truck_id', 'month']`. -/
def mergeTruckMonthly (monthOf : Int → Int) (tm : TumTable) (rows : List OpRow) :
    List OpRow :=
  rows.flatMap (fun r =>
    match tm.rows.filter
        (fun g => g.truck_id == r.trip.truck_id && monthEq (g.month.map monthOf) r.month) with
    | [] => [r]
    | ms => ms.map (fun g =>
        { r with
          util := if tm.hasUtil then g.utilization_rate else r.util,
          downtime := if tm.hasDowntime then g.downtime_hours else r.downtime }))

/-- The base joined view: trips ⋈ loads (left, `load_id`) ⋈ delivery_events
(left, `load_id`+`trip_id`) ⋈ routes (left, `route_id`), with the derived
`on_time`, `route_name` and `month` columns. -/
def baseRows (monthOf : Int → Int) (trips : List TripRow) (loads : List LoadRow)
    (events : List EventRow) (routes : List RouteRow) : List OpRow :=
  ((leftMerge (leftMerge (leftMerge trips loads (fun t l => t.load_id == l.load_id)) events
      (fun p e => p.1.load_id == e.load_id && p.1.trip_id == e.trip_id)) routes
      (fun p r => p.1.1.route_id == r.route_id))).map (fun p =>
    { trip := p.1.1.1, load := p.1.1.2, event := p.1.2, route := p.2,
      on_time := onTimeFlag (p.1.2.bind (·.scheduled_datetime))
        (p.1.2.bind (·.actual_datetime)),
      route_name := routeName p.2,
      month := p.1.1.1.dispatch_date.map monthOf,
      idle := none, mpg := none, util := none, downtime := none })

/-- The driver-monthly merge step, performed only when the table is present
and non-empty. -/
def dmStep (monthOf : Int → Int) (dm : Option DmmTable) (rows : List OpRow) :
    List OpRow :=
  match dm with
  | some dmm => if dmm.rows = [] then rows else mergeDriverMonthly monthOf dmm rows
  | none => rows

/-- The truck-monthly merge step, performed only when the table is present
and non-empty. -/
def tmStep (monthOf : Int → Int) (tm : Option TumTable) (rows : List OpRow) :
    List OpRow :=
  match tm with
  | some tmt => if tmt.rows = [] then rows else mergeTruckMonthly monthOf tmt rows
  | none => rows

/-- `_prepare_data`: if any of the four core tables is `None` or empty the
view is the empty dataframe; otherwise the base join followed by the two
optional monthly-metric merges.  `monthOf` is the external
`dt.to_period('M')` truncation. -/
def prepareData (monthOf : Int → Int) (d : DataDict) : OpView :=
  match d.trips, d.loads, d.delivery_events, d.routes with
  | some trips, some loads, some events, some routes =>
    if trips = [] ∨ loads = [] ∨ events = [] ∨ routes = [] then emptyOpView
    else
      { rows := tmStep monthOf d.truck_utilization_metrics
          (dmStep monthOf d.driver_monthly_metrics (baseRows monthOf trips loads events routes)),
        hasIdleCol :=
          match d.driver_monthly_metrics with
          | some dmm => decide (dmm.rows ≠ []) && dmm.hasIdle
          | none => false,
        hasMpgCol :=
          match d.driver_monthly_metrics with
          | some dmm => decide (dmm.rows ≠ []) && dmm.hasMpg
          | none => false,
        hasUtilCol :=
          match d.truck_utilization_metrics with
          | some tm => decide (tm.rows ≠ []) && tm.hasUtil
          | none => false,
        hasDowntimeCol :=
          match d.truck_utilization_metrics with
          | some tm => decide (tm.rows ≠ []) && tm.hasDowntime
          | none => false }
  | _, _, _, _ => emptyOpView

/-- The operational KPI record (`get_kpis`). -/
structure OpKpis where
  on_time_rate : ℚ
  fleet_utilization : ℚ
  avg_idle_hours : ℚ
  avg_mpg : ℚ
  total_trips : Nat
  unique_trucks : Nat
  unique_drivers : Nat
deriving DecidableEq, Repr

/-- `get_kpis`: `{}` on an empty view, otherwise the means with their
column-presence and `notna().any()` guards (each defaulting to 0). -/
def getKpis (v : OpView) : Option OpKpis :=
  if v.rows = [] then none
  else
    some
      { on_time_rate := boolMean (v.rows.map (·.on_time)) * 100,
        fleet_utilization :=
          if v.hasUtilCol then (((meanOpt (v.rows.filterMap (·.util))).map (· * 100)).getD 0)
          else 0,
        avg_idle_hours :=
          if v.hasIdleCol then (meanOpt (v.rows.filterMap (·.idle))).getD 0 else 0,
        avg_mpg :=
          if v.hasMpgCol then (meanOpt (v.rows.filterMap (·.mpg))).getD 0 else 0,
        total_trips := v.rows.length,
        unique_trucks := (dedupRows (v.rows.map (·.trip.truck_id))).length,
        unique_drivers := (dedupRows (v.rows.map (·.trip.driver_id))).length }

/-- One row of `get_route_ontime_df`. -/
structure RouteStat where
  name : String
  onTimeCount : Nat
  totalTrips : Nat
  rate : ℚ
deriving DecidableEq, Repr

/-- `groupby('route_name')` (keys sorted ascending, pandas default) with the
`sum`/`count`/`mean` aggregation of `on_time`; the rate is `(mean*100).round(1)`. -/
def groupRoutes (rows : List OpRow) : List RouteStat :=
  let names := isortBy strLe (dedupRows (rows.map (·.route_name)))
  names.map (fun n =>
    let grp := rows.filter (fun r => r.route_name == n)
    { name := n,
      onTimeCount := (grp.filter (·.on_time)).length,
      totalTrips := grp.length,
      rate := roundTo1 (boolMean (grp.map (·.on_time)) * 100) })

/-- `get_route_ontime_df` with `min_trips = 3`, sorted by rate descending. -/
def routeOntimeStats (rows : List OpRow) : List RouteStat :=
  isortBy (fun a b => decide (b.rate ≤ a.rate))
    ((groupRoutes rows).filter (fun s => 3 ≤ s.totalTrips))

/-- `get_worst_routes_df`: the `n` smallest rates (`nsmallest`, first kept on
ties). -/
def worstRoutes (rows : List OpRow) (n : Nat) : List RouteStat :=
  (isortBy (fun a b => decide (a.rate ≤ b.rate)) (routeOntimeStats rows)).take n

/-- A domain alert as the analyzers emit it
(`{'type', 'title', 'message', 'metric'}`). -/
structure DomainAlert where
  atype : String
  title : String
  message : String
  metric : String
deriving DecidableEq, Repr

/-- The threshold rules of `OperationalAnalyzer.get_alerts`, applied to the
KPI record (`kpis.get(key, default)` reads with defaults 100/100/0 when the
KPI dictionary is empty) and to the three worst routes. -/
def opAlertsFromKpis (k : Option OpKpis) (worst : List RouteStat) : List DomainAlert :=
  let otr : ℚ := match k with | some k => k.on_time_rate | none => 100
  let util : ℚ := match k with | some k => k.fleet_utilization | none => 100
  let idle : ℚ := match k with | some k => k.avg_idle_hours | none => 0
  (if otr < 85 then
    [{ atype := "critical", title := "On-Time Delivery Below Target",
       message := "Current rate: " ++ fmt1 otr ++ "%, Target: 85%+",
       metric := "Gap: " ++ fmt1 (85 - otr) ++ "%" }]
   else if otr < 90 then
    [{ atype := "warning", title := "On-Time Delivery Needs Improvement",
       message := "Current rate: " ++ fmt1 otr ++ "%, Target: 90%+",
       metric := "Gap: " ++ fmt1 (90 - otr) ++ "%" }]
   else [])
  ++ (if util < 75 then
    [{ atype := "warning", title := "Low Fleet Utilization",
       message := "Trucks are underutilized at " ++ fmt1 util ++ "%",
       metric := "Consider route optimization" }]
   else [])
  ++ (if idle > 5 then
    [{ atype := "warning", title := "High Average Idle Time",
       message := "Drivers averaging " ++ fmt1 idle ++ " idle hours",
       metric := "Review scheduling and routes" }]
   else [])
  ++ (match worst with
      | [] => []
      | w :: _ =>
        if w.rate < 70 then
          [{ atype := "critical", title := "Routes with Critical On-Time Issues",
             message := "Routes below 70%: " ++
               String.intercalate ", " ((worst.map (·.name)).take 2),
             metric := "Worst: " ++ fmt1 w.rate ++ "%" }]
        else [])

/-- `OperationalAnalyzer.get_alerts()` on the analyzer's own view. -/
def opGetAlerts (monthOf : Int → Int) (d : DataDict) : List DomainAlert :=
  let v := prepareData monthOf d
  opAlertsFromKpis (getKpis v) (worstRoutes v.rows 3)

/-! ## Driver analyzer (`driver_analyzer.py`) -/

/-- Python's `str.strip()` on a `String`. -/
def stripStr (s : String) : String :=
  ⟨stripChars s.data⟩

/-- `(first.fillna('') + ' ' + last.fillna('')).strip()`, then the empty name
becomes `'Unknown Driver'`. -/
def mkDriverName (f l : Option String) : String :=
  let s := stripStr (f.getD "" ++ " " ++ l.getD "")
  if s = "" then "Unknown Driver" else s

/-- Incident count of one driver (`groupby('driver_id').size()` merged left
with `fillna(0)`: absent drivers get 0). -/
def incCount (incidents : Option (List IncidentRow)) (did : Int) : Nat :=
  match incidents with
  | some l => if l = [] then 0 else (l.filter (fun i => i.driver_id == did)).length
  | none => 0

/-- A row of `_prepare_driver_data` after numeric coercion, `fillna(0)`, the
name merge and the incident merge. -/
structure PrepDriverRow where
  driver_id : Int
  revenue : ℚ
  mpg : ℚ
  idle : ℚ
  otd : ℚ
  name : String
  incidents : Nat
deriving DecidableEq, Repr

/-- `_prepare_driver_data` on a present, non-empty metrics table whose four
numeric columns are all present: the left merge with `drivers` (duplicating a
metrics row once per matching driver row), the display name, and the incident
count. -/
def prepDriverRows (d : DataDict) (dmm : DmmTable) : List PrepDriverRow :=
  dmm.rows.flatMap (fun g =>
    let names : List String :=
      match d.drivers with
      | some ds =>
        if ds = [] then ["Driver " ++ toString g.driver_id]
        else
          match ds.filter (fun dr => dr.driver_id == g.driver_id) with
          | [] => [mkDriverName none none]
          | ms => ms.map (fun dr => mkDriverName dr.first_name dr.last_name)
      | none => ["Driver " ++ toString g.driver_id]
    names.map (fun nm =>
      { driver_id := g.driver_id,
        revenue := g.total_revenue.getD 0,
        mpg := g.average_mpg.getD 0,
        idle := g.average_idle_hours.getD 0,
        otd := g.on_time_delivery_rate.getD 0,
        name := nm,
        incidents := incCount d.safety_incidents g.driver_id }))

/-- The fleet-wide driver KPI record (`DriverPerformanceAnalyzer.get_kpis`). -/
structure DKpis where
  avg_revenue : ℚ
  avg_mpg : ℚ
  avg_idle : ℚ
  avg_otd : ℚ
  total_incidents : Nat
  total_drivers : Nat
deriving DecidableEq, Repr

/-- `get_kpis` on the prepared (non-empty) driver rows. -/
def driverKpisOf (rows : List PrepDriverRow) : DKpis :=
  { avg_revenue := meanList (rows.map (·.revenue)),
    avg_mpg := meanList (rows.map (·.mpg)),
    avg_idle := meanList (rows.map (·.idle)),
    avg_otd := meanList (rows.map (·.otd)) * 100,
    total_incidents :=
      ((dedupRows (rows.map (·.driver_id))).map (fun i =>
        maxList ((rows.filter (fun r => r.driver_id == i)).map (·.incidents)))).sum,
    total_drivers := (dedupRows (rows.map (·.driver_id))).length }

/-- Lexicographic order on `(driver_id, name)` group keys (pandas `groupby`
sorts its keys ascending). -/
def pairLe (p q : Int × String) : Bool :=
  if p.1 = q.1 then strLe p.2 q.2 else decide (p.1 < q.1)

/-- One leaderboard row (`get_leaderboard_df`). -/
structure LeadRow where
  driver_id : Int
  name : String
  revenue : ℚ
  mpg : ℚ
  otd : ℚ
  idle : ℚ
  incidents : Nat
  score : ℚ
deriving DecidableEq, Repr

/-- `get_leaderboard_df()` with its default arguments: group by
`(driver_id, name)`, aggregate (`sum`/`mean`/`mean`/`mean`/`max`), score each
group, sort by score descending. -/
def leaderboardOf (rows : List PrepDriverRow) : List LeadRow :=
  let keys := isortBy pairLe (dedupRows (rows.map (fun r => (r.driver_id, r.name))))
  let base := keys.map (fun k =>
    let grp := rows.filter (fun r => r.driver_id == k.1 && r.name == k.2)
    let rev := (grp.map (·.revenue)).sum
    let mpg := meanList (grp.map (·.mpg))
    let otd := meanList (grp.map (·.otd))
    let idle := meanList (grp.map (·.idle))
    let inc := maxList (grp.map (·.incidents))
    { driver_id := k.1, name := k.2, revenue := rev, mpg := mpg, otd := otd,
      idle := idle, incidents := inc,
      score := leaderboardScore rev mpg otd idle (inc : ℚ) })
  isortBy (fun a b => decide (b.score ≤ a.score)) base

/-- `DriverPerformanceAnalyzer.get_alerts()` as collected by the engine's
`_get_driver_alerts` wrapper: an absent or empty metrics table yields the
default-KPI path (which emits nothing); a metrics table missing one of the
four numeric columns makes `get_kpis` raise `KeyError`, which the wrapper
catches, returning `[]`. -/
def driverDomainAlerts (d : DataDict) : List DomainAlert :=
  match d.driver_monthly_metrics with
  | none => []
  | some dmm =>
    if dmm.rows = [] then []
    else if ¬(dmm.hasRevenue ∧ dmm.hasMpg ∧ dmm.hasIdle ∧ dmm.hasOtd) then []
    else
      let rows := prepDriverRows d dmm
      let k := driverKpisOf rows
      (if k.avg_otd < 85 then
        [{ atype := "critical", title := "Driver On-Time Rate Below Target",
           message := "Fleet average: " ++ fmt1 k.avg_otd ++ "%, Target: 85%+",
           metric := "Action needed!" }]
       else [])
      ++ (if k.avg_idle > 5 then
        [{ atype := "warning", title := "High Fleet Idle Time",
           message := "Drivers averaging " ++ fmt1 k.avg_idle ++ " idle hours",
           metric := "Consider driver training" }]
       else [])
      ++ (if k.total_incidents > 8 then
        [{ atype := "critical", title := "Safety Concern: High Incident Count",
           message := toString k.total_incidents ++ " safety incidents recorded",
           metric := "Review safety protocols" }]
       else [])
      ++ (if k.avg_mpg < 6 then
        [{ atype := "warning", title := "Low Fleet Fuel Efficiency",
           message := "Average MPG: " ++ fmt1 k.avg_mpg,
           metric := "Check driving habits" }]
       else [])
      ++ (let low := (leaderboardOf rows).filter (fun r => r.score < 20)
          match low with
          | [] => []
          | _ =>
            [{ atype := "warning",
               title := toString low.length ++ " Drivers with Low Performance Scores",
               message := "Including: " ++
                 String.intercalate ", " ((low.map (·.name)).take 2),
               metric := "Consider coaching" }])

/-! ## Fuel & maintenance analyzer (`fuel_maintenance.py`) -/

/-- The fuel/maintenance KPI record (`FuelMaintenanceAnalyzer.get_kpis`);
`none` numeric entries are `NaN` means. -/
structure FKpis where
  total_fuel_cost : ℚ
  total_gallons : ℚ
  avg_price_gallon : Option ℚ
  fleet_mpg : Option ℚ
  total_maint_cost : ℚ
  maint_events : Nat
  avg_downtime : Option ℚ
deriving DecidableEq, Repr

/-- `get_kpis()` (no truck filter): `{}` when `fuel_purchases` or
`maintenance_records` is `None`; `fleet_mpg` starts at 0 and becomes the
(possibly `NaN`) mean only when the utilization table exists and carries the
`average_mpg` column. -/
def fleetKpis (d : DataDict) : Option FKpis :=
  match d.fuel_purchases, d.maintenance_records with
  | some fuel, some maint =>
    some
      { total_fuel_cost := (fuel.map (·.total_cost)).sum,
        total_gallons := (fuel.map (·.gallons)).sum,
        avg_price_gallon := meanOpt (fuel.map (·.price_per_gallon)),
        fleet_mpg :=
          match d.truck_utilization_metrics with
          | some tm =>
            if tm.hasMpg then meanOpt (tm.rows.filterMap (·.average_mpg)) else some 0
          | none => some 0,
        total_maint_cost := (maint.map (·.total_cost)).sum,
        maint_events := maint.length,
        avg_downtime := meanOpt (maint.filterMap (·.downtime_hours)) }
  | _, _ => none

/-- `get_high_risk_trucks()` with the default thresholds (500000 miles,
10 years): classify every truck, keep the non-`Low` ones, sort by the risk
label descending (string order, so `Medium` sorts before `High`). -/
def getHighRiskTrucks (currentYear : Int) (trucks : Option (List TruckRow)) :
    List (TruckRow × Risk) :=
  match trucks with
  | none => []
  | some ts =>
    isortBy (fun a b => strLe (riskStr b.2) (riskStr a.2))
      ((ts.map (fun t => (t, truckRisk currentYear 500000 10 t))).filter
        (fun p => p.2 ≠ Risk.low))

/-- `FuelMaintenanceAnalyzer.get_alerts()` (no truck filter). -/
def fleetDomainAlerts (currentYear : Int) (d : DataDict) : List DomainAlert :=
  let k := fleetKpis d
  (match k with
   | some k =>
     if optLt k.fleet_mpg 6 then
       [{ atype := "warning", title := "Low Fleet Fuel Efficiency",
          message := "Average MPG: " ++ (k.fleet_mpg.map fmt1).getD "nan",
          metric := "Check idling and routes" }]
     else []
   | none => [])
  ++ (match k with
      | some k =>
        if optGt k.avg_downtime 8 then
          [{ atype := "critical", title := "High Maintenance Downtime",
             message := "Average " ++ (k.avg_downtime.map fmt1).getD "nan" ++
               " hours per event",
             metric := "Impacting fleet utilization" }]
        else []
      | none => [])
  ++ (match k with
      | some k =>
        if k.total_maint_cost > 50000 then
          [{ atype := "warning", title := "High Maintenance Spending",
             message := "Total: $" ++ fmt0 k.total_maint_cost,
             metric := "Review preventive maintenance" }]
        else []
      | none => [])
  ++ (let hr := (getHighRiskTrucks currentYear d.trucks).filter (fun p => p.2 = Risk.high)
      match hr with
      | [] => []
      | _ =>
        [{ atype := "critical",
           title := toString hr.length ++ " High-Risk Trucks Detected",
           message := "Trucks with high mileage AND age",
           metric := "Schedule inspections" }])

/-! ## Alerts engine (`alerts_engine.py`) -/

/-- `FinancialAnalyzer` defines no `get_alerts` method; the `AttributeError`
raised by `_get_financial_alerts` is caught there and turned into `[]`. -/
def financialDomainAlerts (_d : DataDict) : List DomainAlert := []

/-- An alert after the engine tags it with its source module and a collection
timestamp. -/
structure Alert where
  atype : String
  title : String
  message : String
  metric : String
  source : String
  timestamp : String
deriving DecidableEq, Repr

/-- `severity_order = {'critical': 0, 'warning': 1, 'info': 2}` with
`.get(type, 3)` for anything else. -/
def sevRank (s : String) : Nat :=
  if s = "critical" then 0 else if s = "warning" then 1 else if s = "info" then 2 else 3

/-- Tag a domain's alerts with its source name and the collection timestamp. -/
def tagAlerts (src ts : String) (l : List DomainAlert) : List Alert :=
  l.map (fun a =>
    { atype := a.atype, title := a.title, message := a.message, metric := a.metric,
      source := src, timestamp := ts })

/-- The key comparison of the engine's stable severity sort. -/
def sevLe (a b : Alert) : Bool :=
  decide (sevRank a.atype ≤ sevRank b.atype)

/-- The four domains' alerts in the fixed collection order (Financial,
Operations, Drivers, Fleet), each tagged with its source. -/
def taggedAll (now : String) (finl ops drv flt : List DomainAlert) : List Alert :=
  tagAlerts "Financial" now finl ++ tagAlerts "Operations" now ops ++
    tagAlerts "Drivers" now drv ++ tagAlerts "Fleet" now flt

/-- `get_all_alerts`: the tagged concatenation, sorted stably by severity. -/
def combineAlerts (now : String) (finl ops drv flt : List DomainAlert) : List Alert :=
  isortBy sevLe (taggedAll now finl ops drv flt)

/-- The engine's default threshold map, in insertion order. -/
def initThresholds : List (String × ℚ) :=
  [("on_time_rate_critical", 85), ("on_time_rate_warning", 90),
   ("idle_hours_warning", 5), ("fleet_mpg_warning", 6),
   ("downtime_hours_critical", 8), ("mileage_high", 500000),
   ("truck_age_high", 10), ("maintenance_cost_warning", 50000),
   ("incident_count_critical", 8), ("profit_margin_warning", 15)]

/-- The engine's state: the shared data dictionary and the mutable threshold
map. -/
structure AlertsEngine where
  data : DataDict
  thresholds : List (String × ℚ)
deriving DecidableEq, Repr

/-- `AlertsEngine(data)`. -/
def mkEngine (d : DataDict) : AlertsEngine :=
  { data := d, thresholds := initThresholds }

/-- `set_threshold(key, value)`: update the entry only when the key already
exists. -/
def setThreshold (e : AlertsEngine) (key : String) (value : ℚ) : AlertsEngine :=
  if e.thresholds.any (fun p => p.1 == key) then
    { e with thresholds := e.thresholds.map (fun p => if p.1 == key then (p.1, value) else p) }
  else e

/-- A sequence of `set_threshold` calls. -/
def applyThresholdUpdates (e : AlertsEngine) : List (String × ℚ) → AlertsEngine
  | [] => e
  | u :: us => applyThresholdUpdates (setThreshold e u.1 u.2) us

/-- `get_all_alerts()`: each domain analyzer is constructed from `self.data`
alone and scanned with its own constants. -/
def getAllAlerts (monthOf : Int → Int) (currentYear : Int) (now : String)
    (e : AlertsEngine) : List Alert :=
  combineAlerts now (financialDomainAlerts e.data) (opGetAlerts monthOf e.data)
    (driverDomainAlerts e.data) (fleetDomainAlerts currentYear e.data)

/-! ## Concrete fixtures (used by witnesses and counterexamples) -/

/-- A date parser that fails on every string. -/
def parse0 : String → Option Int := fun _ => none

/-- A fixed numeric-to-timestamp conversion. -/
def numToTs0 : ℚ → Int := fun _ => 0

/-- A fixed month truncation. -/
def monthOf0 : Int → Int := fun t => t

/-- A numeric `driver_id` column with one null among the values 1 and 3. -/
def tblDriverId : Table :=
  { header := [{ name := "driver_id", dtype := .numeric }],
    rows := [[Cell.num 1], [Cell.null], [Cell.num 3]] }

/-- A numeric `model_year` column next to a text column. -/
def tblModelYear : Table :=
  { header := [{ name := "Model Year", dtype := .numeric },
               { name := "city", dtype := .text }],
    rows := [[Cell.num 2015, Cell.str "X"],
             [Cell.num 2015, Cell.str "X"],
             [Cell.num 2020, Cell.null]] }

/-- The data dictionary with every table absent. -/
def dictEmpty : DataDict :=
  { trips := none, loads := none, delivery_events := none, routes := none,
    driver_monthly_metrics := none, truck_utilization_metrics := none,
    drivers := none, safety_incidents := none, fuel_purchases := none,
    maintenance_records := none, trucks := none }

/-- A one-trip data dictionary whose delivery event is 29 minutes late. -/
def dictOneTrip : DataDict :=
  { dictEmpty with
    trips := some [{ trip_id := 1, load_id := 1, driver_id := 1, truck_id := 1,
                     route_id := 1, dispatch_date := some 0 }],
    loads := some [{ load_id := 1, revenue := 100 }],
    delivery_events := some [{ load_id := 1, trip_id := 1,
                               scheduled_datetime := some 600,
                               actual_datetime := some 629 }],
    routes := some [{ route_id := 1, origin_city := some "A",
                      destination_city := some "B" }] }

/-- An operational KPI record with the given on-time rate and idle hours. -/
def kpisAt (r idle : ℚ) : OpKpis :=
  { on_time_rate := r, fleet_utilization := 100, avg_idle_hours := idle,
    avg_mpg := 0, total_trips := 1, unique_trucks := 1, unique_drivers := 1 }

/-- A truck over both default risk thresholds when the year is 2026. -/
def truckEx : TruckRow :=
  { truck_id := 1, model_year := 2015, odometer_reading := 600000 }

/-- Sample domain alerts of each severity. -/
def alertC : DomainAlert :=
  { atype := "critical", title := "c1", message := "m", metric := "x" }

/-- A warning-severity sample alert. -/
def alertW : DomainAlert :=
  { atype := "warning", title := "w1", message := "m", metric := "x" }

/-- An info-severity sample alert. -/
def alertI : DomainAlert :=
  { atype := "info", title := "i1", message := "m", metric := "x" }

end FleetSmart

namespace FleetSmart

/-! # Theorems

## Character-level lemmas for column-name canonicalization -/

theorem toNat_ofNat_of_lt {n : Nat} (h : n < 55296) : (Char.ofNat n).toNat = n := by
  unfold Char.ofNat
  split
  · rfl
  · rename_i hc
    exact absurd (Or.inl (by omega)) hc

theorem charLe_iff {a b : Char} : a ≤ b ↔ a.toNat ≤ b.toNat := by
  rw [Char.le_def]
  exact ⟨fun h => h, fun h => h⟩

theorem toNat_A : ('A').toNat = 65 := by decide
theorem toNat_Z : ('Z').toNat = 90 := by decide

theorem toNat_pyLowerChar_upper {c : Char} (h : 'A' ≤ c ∧ c ≤ 'Z') :
    (pyLowerChar c).toNat = c.toNat + 32 := by
  have h2 : c.toNat ≤ 90 := toNat_Z ▸ charLe_iff.mp h.2
  rw [pyLowerChar, if_pos h]
  exact toNat_ofNat_of_lt (by omega)

theorem pyLowerChar_not_upper (c : Char) :
    ¬('A' ≤ pyLowerChar c ∧ pyLowerChar c ≤ 'Z') := by
  by_cases h : 'A' ≤ c ∧ c ≤ 'Z'
  · intro hcontra
    have h1 := toNat_A ▸ charLe_iff.mp hcontra.1
    have h2 := toNat_Z ▸ charLe_iff.mp hcontra.2
    rw [toNat_pyLowerChar_upper h] at h1 h2
    have h3 := toNat_A ▸ charLe_iff.mp h.1
    omega
  · rw [pyLowerChar, if_neg h]
    exact h

theorem pyLowerChar_idem (c : Char) : pyLowerChar (pyLowerChar c) = pyLowerChar c := by
  conv_lhs => rw [pyLowerChar]
  rw [if_neg (pyLowerChar_not_upper c)]

theorem pyIsSpace_toNat {c : Char} (h : pyIsSpace c = true) :
    c.toNat = 32 ∨ c.toNat = 9 ∨ c.toNat = 10 ∨ c.toNat = 13 ∨ c.toNat = 11 ∨ c.toNat = 12 := by
  simp only [pyIsSpace, Bool.or_eq_true, decide_eq_true_eq] at h
  rcases h with ((((h | h) | h) | h) | h) | h <;> rw [h] <;> decide

theorem pyIsSpace_pyLowerChar {c : Char} (h : pyIsSpace (pyLowerChar c) = true) :
    pyIsSpace c = true := by
  by_cases hu : 'A' ≤ c ∧ c ≤ 'Z'
  · exfalso
    have hn : (pyLowerChar c).toNat = c.toNat + 32 := toNat_pyLowerChar_upper hu
    have h1 := toNat_A ▸ charLe_iff.mp hu.1
    have h9 := pyIsSpace_toNat h
    omega
  · rwa [pyLowerChar, if_neg hu] at h

theorem replChar_pos {x : Char} (h : x = ' ' ∨ x = '-') : replChar x = '_' := by
  rw [replChar, if_pos h]

theorem replChar_neg {x : Char} (h : ¬(x = ' ' ∨ x = '-')) : replChar x = x := by
  rw [replChar, if_neg h]

theorem pyIsSpace_replChar {c : Char} (h : pyIsSpace (replChar c) = true) :
    pyIsSpace c = true := by
  by_cases hr : c = ' ' ∨ c = '-'
  · rw [replChar_pos hr] at h
    exact absurd h (by decide)
  · rwa [replChar_neg hr] at h

theorem canonStep_idem (c : Char) :
    replChar (pyLowerChar (replChar (pyLowerChar c))) = replChar (pyLowerChar c) := by
  by_cases hr : pyLowerChar c = ' ' ∨ pyLowerChar c = '-'
  · rw [replChar_pos hr]
    decide
  · rw [replChar_neg hr, pyLowerChar_idem, replChar_neg hr]

theorem pyIsSpace_canonStep {c : Char} (h : pyIsSpace (replChar (pyLowerChar c)) = true) :
    pyIsSpace c = true :=
  pyIsSpace_pyLowerChar (pyIsSpace_replChar h)

theorem not_ws_canonStep {c0 : Char} (h : pyIsSpace c0 = false) :
    pyIsSpace (replChar (pyLowerChar c0)) = false := by
  cases hx : pyIsSpace (replChar (pyLowerChar c0)) with
  | false => rfl
  | true => rw [pyIsSpace_canonStep hx] at h; exact absurd h (by simp)

theorem dropWhile_head_not {α : Type} {p : α → Bool} :
    ∀ {l : List α} {c : α}, (l.dropWhile p).head? = some c → p c = false := by
  intro l
  induction l with
  | nil => intro c h; simp at h
  | cons a l ih =>
    intro c h
    rw [List.dropWhile_cons] at h
    by_cases hp : p a = true
    · rw [if_pos hp] at h
      exact ih h
    · rw [if_neg hp] at h
      simp only [List.head?_cons, Option.some_inj] at h
      simp only [Bool.not_eq_true] at hp
      rw [← h]
      exact hp

theorem dropWhile_eq_self_of_head {α : Type} {p : α → Bool} {l : List α}
    (h : ∀ c, l.head? = some c → p c = false) : l.dropWhile p = l := by
  cases l with
  | nil => rfl
  | cons a l =>
    rw [List.dropWhile_cons, if_neg]
    simp [h a rfl]

theorem exists_dropWhile_eq_drop {α : Type} (p : α → Bool) (l : List α) :
    ∃ n, l.dropWhile p = l.drop n := by
  induction l with
  | nil => exact ⟨0, rfl⟩
  | cons a l ih =>
    by_cases hp : p a = true
    · obtain ⟨n, hn⟩ := ih
      exact ⟨n + 1, by rw [List.dropWhile_cons, if_pos hp, hn]; rfl⟩
    · exact ⟨0, by rw [List.dropWhile_cons, if_neg hp]; rfl⟩

theorem head?_stripChars {l : List Char} {c : Char}
    (h : (stripChars l).head? = some c) : pyIsSpace c = false := by
  obtain ⟨n, hn⟩ := exists_dropWhile_eq_drop pyIsSpace (l.dropWhile pyIsSpace).reverse
  rw [stripChars, hn, List.reverse_drop, List.reverse_reverse, List.head?_take] at h
  split at h
  · simp at h
  · exact dropWhile_head_not h

theorem getLast?_stripChars {l : List Char} {c : Char}
    (h : (stripChars l).getLast? = some c) : pyIsSpace c = false := by
  rw [stripChars, List.getLast?_reverse] at h
  exact dropWhile_head_not h

theorem stripChars_eq_self {l : List Char}
    (h1 : ∀ c, l.head? = some c → pyIsSpace c = false)
    (h2 : ∀ c, l.getLast? = some c → pyIsSpace c = false) :
    stripChars l = l := by
  rw [stripChars, dropWhile_eq_self_of_head h1, dropWhile_eq_self_of_head
    (by intro c hc; rw [List.head?_reverse] at hc; exact h2 c hc), List.reverse_reverse]

theorem canonChars_idem (l : List Char) : canonChars (canonChars l) = canonChars l := by
  have hstrip : stripChars (canonChars l) = canonChars l := by
    apply stripChars_eq_self
    · intro c hc
      rw [canonChars, List.head?_map] at hc
      cases hh : (stripChars l).head? with
      | none => rw [hh] at hc; simp at hc
      | some c0 =>
        rw [hh] at hc
        simp only [Option.map_some'] at hc
        rw [← Option.some_inj.mp hc]
        exact not_ws_canonStep (head?_stripChars hh)
    · intro c hc
      rw [canonChars, List.getLast?_map] at hc
      cases hh : (stripChars l).getLast? with
      | none => rw [hh] at hc; simp at hc
      | some c0 =>
        rw [hh] at hc
        simp only [Option.map_some'] at hc
        rw [← Option.some_inj.mp hc]
        exact not_ws_canonStep (getLast?_stripChars hh)
  conv_lhs => rw [canonChars, hstrip]
  rw [canonChars, List.map_map]
  exact List.map_congr_left (fun c _ => canonStep_idem c)

theorem canonName_idem (s : String) : canonName (canonName s) = canonName s := by
  unfold canonName
  exact congrArg String.mk (canonChars_idem s.data)

end FleetSmart

namespace FleetSmart

/-! ## List lemmas for the cleaning pass -/

theorem zipWith_eq_right {α β : Type} {f : α → β → β} :
    ∀ {l : List α} {r : List β}, r.length ≤ l.length → (∀ a ∈ l, ∀ b, f a b = b) →
      List.zipWith f l r = r := by
  intro l
  induction l with
  | nil =>
    intro r hr _
    cases r with
    | nil => rfl
    | cons b r => simp at hr
  | cons a l ih =>
    intro r hr hf
    cases r with
    | nil => rfl
    | cons b r =>
      rw [List.zipWith_cons_cons, hf a (List.mem_cons_self a l) b,
        ih (by simpa using hr) (fun x hx c => hf x (List.mem_cons_of_mem a hx) c)]

theorem mem_of_mem_dedupAux {α : Type} [DecidableEq α] :
    ∀ {seen l : List α} {x : α}, x ∈ dedupAux seen l → x ∈ l := by
  intro seen l
  induction l generalizing seen with
  | nil => intro x h; simp [dedupAux] at h
  | cons r rs ih =>
    intro x h
    rw [dedupAux] at h
    split at h
    · exact List.mem_cons_of_mem r (ih h)
    · rcases List.mem_cons.mp h with h | h
      · exact h ▸ List.mem_cons_self r rs
      · exact List.mem_cons_of_mem r (ih h)

theorem not_mem_seen_of_mem_dedupAux {α : Type} [DecidableEq α] :
    ∀ {seen l : List α} {x : α}, x ∈ dedupAux seen l → x ∉ seen := by
  intro seen l
  induction l generalizing seen with
  | nil => intro x h; simp [dedupAux] at h
  | cons r rs ih =>
    intro x h
    rw [dedupAux] at h
    split at h
    · exact ih h
    · rename_i hr
      rcases List.mem_cons.mp h with h | h
      · exact h ▸ hr
      · intro hx
        exact (ih h) (List.mem_cons_of_mem r hx)

theorem nodup_dedupAux {α : Type} [DecidableEq α] :
    ∀ (l seen : List α), (dedupAux seen l).Nodup := by
  intro l
  induction l with
  | nil => intro seen; simp [dedupAux]
  | cons r rs ih =>
    intro seen
    rw [dedupAux]
    split
    · exact ih seen
    · refine List.nodup_cons.mpr ⟨?_, ih (r :: seen)⟩
      intro hmem
      exact (not_mem_seen_of_mem_dedupAux hmem) (List.mem_cons_self r seen)

theorem dedupAux_eq_self {α : Type} [DecidableEq α] :
    ∀ {l seen : List α}, l.Nodup → (∀ x ∈ l, x ∉ seen) → dedupAux seen l = l := by
  intro l
  induction l with
  | nil => intro seen _ _; rfl
  | cons r rs ih =>
    intro seen hnd hdis
    rw [dedupAux, if_neg (hdis r (List.mem_cons_self r rs))]
    congr 1
    refine ih (List.nodup_cons.mp hnd).2 ?_
    intro x hx hmem
    rcases List.mem_cons.mp hmem with h | h
    · exact (List.nodup_cons.mp hnd).1 (h ▸ hx)
    · exact hdis x (List.mem_cons_of_mem r hx) h

theorem mem_of_mem_dedupRows {α : Type} [DecidableEq α] {l : List α} {x : α}
    (h : x ∈ dedupRows l) : x ∈ l :=
  mem_of_mem_dedupAux h

theorem nodup_dedupRows {α : Type} [DecidableEq α] (l : List α) : (dedupRows l).Nodup :=
  nodup_dedupAux l []

theorem dedupRows_eq_self {α : Type} [DecidableEq α] {l : List α} (h : l.Nodup) :
    dedupRows l = l :=
  dedupAux_eq_self h (by intro x _ hx; simp at hx)

theorem dedupRows_idem {α : Type} [DecidableEq α] (l : List α) :
    dedupRows (dedupRows l) = dedupRows l :=
  dedupRows_eq_self (nodup_dedupRows l)

/-! ## Imputation lemmas -/

theorem fillCell_none (c : Cell) : fillCell none c = c := by
  cases c <;> rfl

theorem imputeRows_eq_self {h : List ColMeta} {rows : List (List Cell)}
    (hlen : ∀ r ∈ rows, r.length ≤ h.length)
    (hfill : ∀ j, fillValue h rows j = none) : imputeRows h rows = rows := by
  unfold imputeRows
  conv_rhs => rw [← List.map_id rows]
  apply List.map_congr_left
  intro r hr
  apply zipWith_eq_right
  · simpa using hlen r hr
  · intro v hv c
    rw [List.mem_map] at hv
    obtain ⟨j, _, rfl⟩ := hv
    rw [hfill j]
    exact fillCell_none c

theorem getElem?_lt_of_eq_some {α : Type} {l : List α} {j : Nat} {a : α}
    (h : l[j]? = some a) : j < l.length := by
  by_contra hc
  rw [List.getElem?_eq_none (by omega)] at h
  exact Option.noConfusion h

theorem imputeRows_cell {h : List ColMeta} {rows : List (List Cell)} {i j : Nat}
    {r : List Cell} {m : ColMeta} (hi : rows[i]? = some r) (hj : h[j]? = some m)
    (hd : m.dtype = .numeric) (hnull : colHasNull rows j = true)
    (hvals : colNumVals rows j ≠ []) :
    ((imputeRows h rows)[i]?).bind (fun x => x[j]?) =
      (r[j]?).map (fun c =>
        if c = Cell.null then Cell.num (meanList (colNumVals rows j)) else c) := by
  have hjlt : j < h.length := getElem?_lt_of_eq_some hj
  unfold imputeRows
  rw [List.getElem?_map, hi, Option.map_some', Option.some_bind, List.getElem?_zipWith,
    List.getElem?_map, List.getElem?_range hjlt, Option.map_some']
  have hfv : fillValue h rows j = some (meanList (colNumVals rows j)) := by
    unfold fillValue
    simp only [hj]
    exact if_pos ⟨hd, hnull, hvals⟩
  rw [hfv]
  cases hr : r[j]? with
  | none => rfl
  | some c => cases c <;> rfl

theorem mem_imputeRows {h : List ColMeta} {rows : List (List Cell)} {x : List Cell}
    (hx : x ∈ imputeRows h rows) :
    ∃ r ∈ rows, x = List.zipWith fillCell ((List.range h.length).map (fillValue h rows)) r := by
  unfold imputeRows at hx
  rw [List.mem_map] at hx
  obtain ⟨r, hr, he⟩ := hx
  exact ⟨r, hr, he.symm⟩

theorem zip_fill_cell {h : List ColMeta} {rows : List (List Cell)} {r : List Cell} {j : Nat}
    (hjlt : j < h.length) :
    (List.zipWith fillCell ((List.range h.length).map (fillValue h rows)) r)[j]? =
      (r[j]?).map (fillCell (fillValue h rows j)) := by
  rw [List.getElem?_zipWith, List.getElem?_map, List.getElem?_range hjlt]
  cases r[j]? <;> rfl

/-! ## Column-level characterizations -/

theorem colHasNull_eq_false_iff {rows : List (List Cell)} {j : Nat} :
    colHasNull rows j = false ↔ ∀ r ∈ rows, r[j]? ≠ some Cell.null := by
  unfold colHasNull colCells
  rw [← Bool.not_eq_true, List.any_eq_true]
  constructor
  · intro hno r hr he
    exact hno ⟨Cell.null, List.mem_filterMap.mpr ⟨r, hr, he⟩, by simp⟩
  · rintro hall ⟨c, hc, hcnull⟩
    obtain ⟨r, hr, he⟩ := List.mem_filterMap.mp hc
    simp only [decide_eq_true_eq] at hcnull
    exact hall r hr (hcnull ▸ he)

theorem colNumVals_eq_nil_iff {rows : List (List Cell)} {j : Nat} :
    colNumVals rows j = [] ↔ ∀ r ∈ rows, ∀ q : ℚ, r[j]? ≠ some (Cell.num q) := by
  unfold colNumVals colCells
  rw [List.filterMap_eq_nil_iff]
  constructor
  · intro hno r hr q he
    have hmem : Cell.num q ∈ List.filterMap (fun r => r[j]?) rows :=
      List.mem_filterMap.mpr ⟨r, hr, he⟩
    have := hno _ hmem
    simp [cellNumVal] at this
  · intro hall c hc
    obtain ⟨r, hr, he⟩ := List.mem_filterMap.mp hc
    cases c with
    | num q => exact absurd he (hall r hr q)
    | null => rfl
    | str s => rfl
    | dt t => rfl

end FleetSmart

namespace FleetSmart

/-! ## Structure of `cleanTable` and its invariants -/

theorem cleanTable_eq (p : String → Option Int) (n : ℚ → Int) (t : Table) :
    cleanTable p n t =
      { header := fixDatesHeader (renameCols t).header,
        rows := dedupRows (dropCatNullRows (fixDatesHeader (renameCols t).header)
          (imputeRows (fixDatesHeader (renameCols t).header)
            ((renameCols t).rows.map (fixDatesRow p n (renameCols t).header)))) } := rfl

theorem mem_fixDatesHeader {h : List ColMeta} {m : ColMeta} (hm : m ∈ fixDatesHeader h) :
    ∃ m₁ ∈ h, m = if isDateName m₁.name then { m₁ with dtype := .datetime } else m₁ := by
  unfold fixDatesHeader at hm
  rw [List.mem_map] at hm
  obtain ⟨m₁, h₁, he⟩ := hm
  exact ⟨m₁, h₁, he.symm⟩

theorem keyword_datetime_clean {p : String → Option Int} {n : ℚ → Int} {t : Table}
    {m : ColMeta} (hm : m ∈ (cleanTable p n t).header) (hk : isDateName m.name = true) :
    m.dtype = .datetime := by
  rw [cleanTable_eq] at hm
  obtain ⟨m₁, _, he⟩ := mem_fixDatesHeader hm
  by_cases hd : isDateName m₁.name = true
  · rw [he, if_pos hd]
  · rw [he, if_neg hd] at hk ⊢
    exact absurd hk hd

theorem canonName_clean {p : String → Option Int} {n : ℚ → Int} {t : Table}
    {m : ColMeta} (hm : m ∈ (cleanTable p n t).header) : canonName m.name = m.name := by
  rw [cleanTable_eq] at hm
  obtain ⟨m₁, h₁, he⟩ := mem_fixDatesHeader hm
  have hname : m.name = m₁.name := by
    by_cases hd : isDateName m₁.name = true
    · rw [he, if_pos hd]
    · rw [he, if_neg hd]
  unfold renameCols at h₁
  rw [List.mem_map] at h₁
  obtain ⟨m₀, _, he₀⟩ := h₁
  have : m₁.name = canonName m₀.name := by rw [← he₀]
  rw [hname, this, canonName_idem]

theorem length_header_clean (p : String → Option Int) (n : ℚ → Int) (t : Table) :
    (cleanTable p n t).header.length = t.header.length := by
  rw [cleanTable_eq]
  unfold fixDatesHeader renameCols
  simp [List.length_map]

theorem mem_rows_clean {p : String → Option Int} {n : ℚ → Int} {t : Table}
    {r : List Cell} (hr : r ∈ (cleanTable p n t).rows) :
    r ∈ imputeRows (fixDatesHeader (renameCols t).header)
      ((renameCols t).rows.map (fixDatesRow p n (renameCols t).header)) := by
  rw [cleanTable_eq] at hr
  have h1 := mem_of_mem_dedupRows hr
  exact (List.mem_filter.mp h1).1

theorem length_le_header_clean {p : String → Option Int} {n : ℚ → Int} {t : Table}
    {r : List Cell} (hr : r ∈ (cleanTable p n t).rows) :
    r.length ≤ (cleanTable p n t).header.length := by
  have h2 := mem_rows_clean hr
  unfold imputeRows at h2
  rw [List.mem_map] at h2
  obtain ⟨r₀, _, he⟩ := h2
  rw [← he, List.length_zipWith, List.length_map, List.length_range, cleanTable_eq]
  exact min_le_left _ _

theorem no_text_null_clean {p : String → Option Int} {n : ℚ → Int} {t : Table}
    {r : List Cell} (hr : r ∈ (cleanTable p n t).rows) :
    rowHasTextNull (cleanTable p n t).header r = false := by
  rw [cleanTable_eq] at hr ⊢
  have h1 := mem_of_mem_dedupRows hr
  have h2 := (List.mem_filter.mp h1).2
  simpa using h2

theorem nodup_rows_clean (p : String → Option Int) (n : ℚ → Int) (t : Table) :
    (cleanTable p n t).rows.Nodup := by
  rw [cleanTable_eq]
  exact nodup_dedupRows _

/-- No numeric column of a cleaned table has both a null cell and a numeric
cell: either it was filled (no nulls remain), or it never had a numeric value
to average. -/
theorem numeric_col_clean {p : String → Option Int} {n : ℚ → Int} {t : Table}
    {j : Nat} {m : ColMeta} (hj : (cleanTable p n t).header[j]? = some m)
    (hd : m.dtype = .numeric) :
    colHasNull (cleanTable p n t).rows j = false ∨
      colNumVals (cleanTable p n t).rows j = [] := by
  set H := fixDatesHeader (renameCols t).header with hH
  set R := (renameCols t).rows.map (fixDatesRow p n (renameCols t).header) with hR
  have hjH : H[j]? = some m := by rw [cleanTable_eq] at hj; exact hj
  have hjlt : j < H.length := getElem?_lt_of_eq_some hjH
  -- the invariant holds for the imputation output, and final rows are a subset
  have hmem : ∀ x ∈ (cleanTable p n t).rows, x ∈ imputeRows H R := fun x hx =>
    mem_rows_clean hx
  cases hfv : fillValue H R j with
  | some mean =>
    -- the column was filled: no null survives at position j
    left
    rw [colHasNull_eq_false_iff]
    intro x hx he
    obtain ⟨r, _, rfl⟩ := mem_imputeRows (hmem x hx)
    rw [zip_fill_cell hjlt, hfv] at he
    cases hc : r[j]? with
    | none => rw [hc] at he; exact Option.noConfusion he
    | some c =>
      rw [hc] at he
      simp only [Option.map_some'] at he
      have := Option.some_inj.mp he
      cases c <;> simp [fillCell] at this
  | none =>
    -- the cell at j is unchanged by imputation
    have hsame : ∀ x ∈ (cleanTable p n t).rows, ∃ r ∈ R, x[j]? = r[j]? := by
      intro x hx
      obtain ⟨r, hrR, rfl⟩ := mem_imputeRows (hmem x hx)
      refine ⟨r, hrR, ?_⟩
      rw [zip_fill_cell hjlt, hfv]
      cases r[j]? with
      | none => rfl
      | some c => simp [fillCell_none c]
    -- the fill condition failed, so the source column had no null or no value
    have hcond : colHasNull R j = false ∨ colNumVals R j = [] := by
      unfold fillValue at hfv
      simp only [hjH] at hfv
      by_cases h2 : colHasNull R j = true
      · by_cases h3 : colNumVals R j ≠ []
        · rw [if_pos ⟨hd, h2, h3⟩] at hfv
          exact Option.noConfusion hfv
        · right; simpa using h3
      · left; simpa using h2
    rcases hcond with hcase | hcase
    · left
      rw [colHasNull_eq_false_iff] at hcase ⊢
      intro x hx
      obtain ⟨r, hrR, he⟩ := hsame x hx
      rw [he]
      exact hcase r hrR
    · right
      rw [colNumVals_eq_nil_iff] at hcase ⊢
      intro x hx
      obtain ⟨r, hrR, he⟩ := hsame x hx
      rw [he]
      exact hcase r hrR

end FleetSmart

namespace FleetSmart

/-! ## Stage-identity lemmas on a cleaned table -/

theorem renameCols_clean (p : String → Option Int) (n : ℚ → Int) (t : Table) :
    renameCols (cleanTable p n t) = cleanTable p n t := by
  unfold renameCols
  have hh : (cleanTable p n t).header.map (fun m => { m with name := canonName m.name }) =
      (cleanTable p n t).header := by
    conv_rhs => rw [← List.map_id (cleanTable p n t).header]
    apply List.map_congr_left
    intro m hm
    rw [canonName_clean hm]
    rfl
  rw [hh]

theorem fixDates_clean (p : String → Option Int) (n : ℚ → Int) (t : Table) :
    fixDates p n (cleanTable p n t) = cleanTable p n t := by
  unfold fixDates
  have hh : fixDatesHeader (cleanTable p n t).header = (cleanTable p n t).header := by
    unfold fixDatesHeader
    conv_rhs => rw [← List.map_id (cleanTable p n t).header]
    apply List.map_congr_left
    intro m hm
    by_cases hk : isDateName m.name = true
    · rw [if_pos hk]
      have hdt := keyword_datetime_clean hm hk
      cases m with
      | mk nm d =>
        simp at hdt
        rw [hdt]
        rfl
    · rw [if_neg hk]
      rfl
  have hr : (cleanTable p n t).rows.map (fixDatesRow p n (cleanTable p n t).header) =
      (cleanTable p n t).rows := by
    conv_rhs => rw [← List.map_id (cleanTable p n t).rows]
    apply List.map_congr_left
    intro r hrr
    unfold fixDatesRow
    apply zipWith_eq_right (length_le_header_clean hrr)
    intro m hm c
    by_cases hk : isDateName m.name = true
    · rw [if_pos hk, keyword_datetime_clean hm hk]
      rfl
    · rw [if_neg hk]
  rw [hh, hr]

theorem handleMissing_clean (p : String → Option Int) (n : ℚ → Int) (t : Table) :
    handleMissing (cleanTable p n t) = cleanTable p n t := by
  unfold handleMissing
  have himp : imputeRows (cleanTable p n t).header (cleanTable p n t).rows =
      (cleanTable p n t).rows := by
    apply imputeRows_eq_self
    · intro r hr
      exact length_le_header_clean hr
    · intro j
      unfold fillValue
      cases hj : (cleanTable p n t).header[j]? with
      | none => rfl
      | some m =>
        show (if m.dtype = DType.numeric ∧ colHasNull (cleanTable p n t).rows j = true ∧
            colNumVals (cleanTable p n t).rows j ≠ [] then
            some (meanList (colNumVals (cleanTable p n t).rows j)) else none) = none
        rw [if_neg]
        rintro ⟨h1, h2, h3⟩
        rcases numeric_col_clean hj h1 with hc | hc
        · rw [hc] at h2; exact Bool.noConfusion h2
        · exact h3 hc
  have hdrop : dropCatNullRows (cleanTable p n t).header (cleanTable p n t).rows =
      (cleanTable p n t).rows := by
    unfold dropCatNullRows
    rw [List.filter_eq_self]
    intro r hr
    rw [no_text_null_clean hr]
    rfl
  rw [himp, hdrop]

/-- C7 core: `clean_table` is idempotent. -/
theorem cleanTable_idem (p : String → Option Int) (n : ℚ → Int) (t : Table) :
    cleanTable p n (cleanTable p n t) = cleanTable p n t := by
  conv_lhs => rw [cleanTable_eq]
  rw [show (renameCols (cleanTable p n t)) = cleanTable p n t from renameCols_clean p n t]
  have h2 := fixDates_clean p n t
  unfold fixDates at h2
  have hh : fixDatesHeader (cleanTable p n t).header = (cleanTable p n t).header := by
    have := congrArg Table.header h2
    exact this
  have hrows : (cleanTable p n t).rows.map (fixDatesRow p n (cleanTable p n t).header) =
      (cleanTable p n t).rows := by
    have := congrArg Table.rows h2
    exact this
  rw [hh, hrows]
  have h3 := handleMissing_clean p n t
  unfold handleMissing at h3
  have hrows3 := congrArg Table.rows h3
  simp only at hrows3
  rw [hrows3, dedupRows_eq_self (nodup_rows_clean p n t)]

end FleetSmart

namespace FleetSmart

/-- C7: the cleaning pass (column-name canonicalization, date coercion,
numeric imputation, categorical-null row dropping, de-duplication, index
reset) is idempotent: applied to its own output it changes nothing — no
additional rows dropped, no additional values imputed, no cell changed. -/
theorem claim_C7 : ∀ (parse : String → Option Int) (numToTs : ℚ → Int) (t : Table),
    cleanTable parse numToTs (cleanTable parse numToTs t) = cleanTable parse numToTs t :=
  cleanTable_idem

theorem claim_C7_witness :
    cleanTable parse0 numToTs0 (cleanTable parse0 numToTs0 tblModelYear) =
      cleanTable parse0 numToTs0 tblModelYear :=
  claim_C7 parse0 numToTs0 tblModelYear

/-- The mean of the non-null values 1 and 3 of the `driver_id` column. -/
theorem meanDriverId : meanList (colNumVals tblDriverId.rows 0) = 2 := by
  simp [meanList, colNumVals, colCells, cellNumVal, tblDriverId]
  norm_num

/-- The cleaned `driver_id` table, fully evaluated. -/
theorem cleanDriverId :
    cleanTable parse0 numToTs0 tblDriverId =
      { header := [{ name := "driver_id", dtype := DType.numeric }],
        rows := [[Cell.num 1], [Cell.num 2], [Cell.num 3]] } := by
  have h0 : cleanTable parse0 numToTs0 tblDriverId =
      { header := [{ name := "driver_id", dtype := DType.numeric }],
        rows := dedupRows [[Cell.num 1],
          [Cell.num (meanList (colNumVals tblDriverId.rows 0))], [Cell.num 3]] } := rfl
  rw [h0, meanDriverId]
  rw [show dedupRows [[Cell.num 1], [Cell.num 2], [Cell.num 3]] =
    [[Cell.num 1], [Cell.num 2], [Cell.num 3]] from by decide]

/-- C1 counterexample: a numeric column literally named `driver_id` IS altered
by the cleaning pass's mean-imputation when it contains a null — its null cell
becomes the mean 2 of the non-null values 1 and 3. -/
theorem claim_C1_counterexample :
    tblDriverId.header = [{ name := "driver_id", dtype := DType.numeric }] ∧
    tblDriverId.rows[1]? = some [Cell.null] ∧
    (cleanTable parse0 numToTs0 tblDriverId).rows ≠ tblDriverId.rows ∧
    (cleanTable parse0 numToTs0 tblDriverId).rows[1]? = some [Cell.num 2] := by
  refine ⟨rfl, rfl, ?_, ?_⟩
  · rw [cleanDriverId]
    decide
  · rw [cleanDriverId]
    rfl

/-- C1 (amended): in `_handle_missing`, EVERY numeric column — identifier-like
columns such as `driver_id` included, none is exempted — has its null cells
replaced by the mean of the column's non-null values at imputation time (when
at least one non-null value exists); non-null cells are unchanged. -/
theorem claim_C1 : ∀ (h : List ColMeta) (rows : List (List Cell)) (i j : Nat)
    (r : List Cell) (m : ColMeta),
    rows[i]? = some r → h[j]? = some m → m.dtype = .numeric →
    colHasNull rows j = true → colNumVals rows j ≠ [] →
    ((imputeRows h rows)[i]?).bind (fun x => x[j]?) =
      (r[j]?).map (fun c =>
        if c = Cell.null then Cell.num (meanList (colNumVals rows j)) else c) :=
  fun _ _ _ _ _ _ hi hj hd hnull hvals => imputeRows_cell hi hj hd hnull hvals

theorem claim_C1_witness :
    colHasNull tblDriverId.rows 0 = true ∧
    ((imputeRows tblDriverId.header tblDriverId.rows)[1]?).bind (fun x => x[0]?) =
      some (Cell.num 2) := by
  constructor
  · decide
  · have h := claim_C1 tblDriverId.header tblDriverId.rows 1 0 [Cell.null]
      { name := "driver_id", dtype := DType.numeric } rfl rfl rfl (by decide) (by decide)
    rw [h, show (([Cell.null] : List Cell))[0]? = some Cell.null from rfl]
    simp [meanDriverId]

/-- C6 counterexample: a NUMERIC column whose name contains the keyword `year`
(`model_year`) is not left unchanged by `_fix_dates` — its storage type
becomes datetime and its numeric cells become timestamps. -/
theorem claim_C6_counterexample :
    (renameCols tblModelYear).header[0]? =
      some { name := "model_year", dtype := DType.numeric } ∧
    isDateName "model_year" = true ∧
    (fixDates parse0 numToTs0 (renameCols tblModelYear)).header[0]? =
      some { name := "model_year", dtype := DType.datetime } ∧
    (fixDates parse0 numToTs0 (renameCols tblModelYear)).rows[0]? =
      some [Cell.dt 0, Cell.str "X"] := by
  refine ⟨by decide, by decide, by decide, rfl⟩

/-- C6 (amended): `_fix_dates` coerces exactly the columns whose lower-cased
name contains one of the keywords `date`, `time`, `dt`, `timestamp`, `year` —
REGARDLESS of storage type: a textual cell that fails to parse becomes null
and coercion is total (never raises); a numeric keyword column is converted to
timestamps; a column without a keyword in its name is left unchanged. -/
theorem claim_C6 : ∀ (parse : String → Option Int) (numToTs : ℚ → Int)
    (h : List ColMeta) (r : List Cell) (j : Nat) (m : ColMeta) (c : Cell),
    h[j]? = some m → r[j]? = some c →
    ((fixDatesRow parse numToTs h r)[j]? =
        some (if isDateName m.name then toDatetimeCell parse numToTs m.dtype c else c)) ∧
    ((fixDatesHeader h)[j]? =
        some (if isDateName m.name then { m with dtype := .datetime } else m)) ∧
    (∀ s : String, parse s = none →
        toDatetimeCell parse numToTs DType.text (Cell.str s) = Cell.null) := by
  intro parse numToTs h r j m c hj hr
  refine ⟨?_, ?_, ?_⟩
  · unfold fixDatesRow
    rw [List.getElem?_zipWith, hj, hr]
  · unfold fixDatesHeader
    rw [List.getElem?_map, hj, Option.map_some']
  · intro s hs
    show (parse s).elim Cell.null Cell.dt = Cell.null
    rw [hs]
    rfl

theorem claim_C6_witness :
    ((fixDatesRow parse0 numToTs0 (renameCols tblModelYear).header
        [Cell.num 2015, Cell.str "X"])[0]? = some (Cell.dt 0)) ∧
    toDatetimeCell parse0 numToTs0 DType.text (Cell.str "not a date") = Cell.null := by
  have h := claim_C6 parse0 numToTs0 (renameCols tblModelYear).header
    [Cell.num 2015, Cell.str "X"] 0 { name := "model_year", dtype := DType.numeric }
    (Cell.num 2015) (by decide) rfl
  constructor
  · rw [h.1]
    decide
  · exact h.2.2 "not a date" rfl

end FleetSmart

namespace FleetSmart

/-! ## C9 — maintenance-risk classification -/

/-- C9: with `age = current_year − model_year`, the risk is High iff both
strict threshold comparisons hold, Medium iff exactly one holds, and Low iff
neither holds. -/
theorem claim_C9 : ∀ (currentYear : Int) (mileTh : ℚ) (ageTh : Int) (t : TruckRow),
    (truckRisk currentYear mileTh ageTh t = Risk.high ↔
      (t.odometer_reading > mileTh ∧ currentYear - t.model_year > ageTh)) ∧
    (truckRisk currentYear mileTh ageTh t = Risk.medium ↔
      ((t.odometer_reading > mileTh ∧ ¬(currentYear - t.model_year > ageTh)) ∨
       (¬(t.odometer_reading > mileTh) ∧ currentYear - t.model_year > ageTh))) ∧
    (truckRisk currentYear mileTh ageTh t = Risk.low ↔
      (¬(t.odometer_reading > mileTh) ∧ ¬(currentYear - t.model_year > ageTh))) := by
  intro currentYear mileTh ageTh t
  by_cases h1 : t.odometer_reading > mileTh <;> by_cases h2 : currentYear - t.model_year > ageTh <;>
    simp [truckRisk, h1, h2]

theorem claim_C9_witness : truckRisk 2026 500000 10 truckEx = Risk.high :=
  (claim_C9 2026 500000 10 truckEx).1.mpr
    ⟨by norm_num [truckEx], by norm_num [truckEx]⟩

/-! ## C2 — the on-time flag -/

theorem mergeDM_preserves {monthOf : Int → Int} {dmm : DmmTable} {rows : List OpRow}
    {r : OpRow} (h : r ∈ mergeDriverMonthly monthOf dmm rows) :
    ∃ r₀ ∈ rows, r.on_time = r₀.on_time ∧ r.event = r₀.event := by
  unfold mergeDriverMonthly at h
  rw [List.mem_flatMap] at h
  obtain ⟨r₀, hr₀, hmem⟩ := h
  rcases hfilt : dmm.rows.filter
      (fun g => g.driver_id == r₀.trip.driver_id && monthEq (g.month.map monthOf) r₀.month) with
    _ | ⟨g, gs⟩
  · rw [hfilt] at hmem
    simp at hmem
    exact ⟨r₀, hr₀, by rw [hmem], by rw [hmem]⟩
  · rw [hfilt] at hmem
    rw [List.mem_map] at hmem
    obtain ⟨g', _, he⟩ := hmem
    exact ⟨r₀, hr₀, by rw [← he], by rw [← he]⟩

theorem mergeTM_preserves {monthOf : Int → Int} {tm : TumTable} {rows : List OpRow}
    {r : OpRow} (h : r ∈ mergeTruckMonthly monthOf tm rows) :
    ∃ r₀ ∈ rows, r.on_time = r₀.on_time ∧ r.event = r₀.event := by
  unfold mergeTruckMonthly at h
  rw [List.mem_flatMap] at h
  obtain ⟨r₀, hr₀, hmem⟩ := h
  rcases hfilt : tm.rows.filter
      (fun g => g.truck_id == r₀.trip.truck_id && monthEq (g.month.map monthOf) r₀.month) with
    _ | ⟨g, gs⟩
  · rw [hfilt] at hmem
    simp at hmem
    exact ⟨r₀, hr₀, by rw [hmem], by rw [hmem]⟩
  · rw [hfilt] at hmem
    rw [List.mem_map] at hmem
    obtain ⟨g', _, he⟩ := hmem
    exact ⟨r₀, hr₀, by rw [← he], by rw [← he]⟩

theorem dmStep_preserves {monthOf : Int → Int} {dm : Option DmmTable} {rows : List OpRow}
    {r : OpRow} (h : r ∈ dmStep monthOf dm rows) :
    ∃ r₀ ∈ rows, r.on_time = r₀.on_time ∧ r.event = r₀.event := by
  cases dm with
  | none =>
    simp only [dmStep] at h
    exact ⟨r, h, rfl, rfl⟩
  | some dmm =>
    simp only [dmStep] at h
    by_cases he : dmm.rows = []
    · rw [if_pos he] at h
      exact ⟨r, h, rfl, rfl⟩
    · rw [if_neg he] at h
      exact mergeDM_preserves h

theorem tmStep_preserves {monthOf : Int → Int} {tm : Option TumTable} {rows : List OpRow}
    {r : OpRow} (h : r ∈ tmStep monthOf tm rows) :
    ∃ r₀ ∈ rows, r.on_time = r₀.on_time ∧ r.event = r₀.event := by
  cases tm with
  | none =>
    simp only [tmStep] at h
    exact ⟨r, h, rfl, rfl⟩
  | some tmt =>
    simp only [tmStep] at h
    by_cases he : tmt.rows = []
    · rw [if_pos he] at h
      exact ⟨r, h, rfl, rfl⟩
    · rw [if_neg he] at h
      exact mergeTM_preserves h

theorem baseRows_on_time {monthOf : Int → Int} {trips : List TripRow}
    {loads : List LoadRow} {events : List EventRow} {routes : List RouteRow} {x : OpRow}
    (hx : x ∈ baseRows monthOf trips loads events routes) :
    x.on_time = onTimeFlag (x.event.bind (·.scheduled_datetime))
      (x.event.bind (·.actual_datetime)) := by
  unfold baseRows at hx
  rw [List.mem_map] at hx
  obtain ⟨p, _, he⟩ := hx
  rw [← he]

theorem prepareData_on_time {monthOf : Int → Int} {d : DataDict} {r : OpRow}
    (hr : r ∈ (prepareData monthOf d).rows) :
    r.on_time = onTimeFlag (r.event.bind (·.scheduled_datetime))
      (r.event.bind (·.actual_datetime)) := by
  obtain ⟨tr, lo, ev, ro, dm, tm, dr, si, fp, mr, tk⟩ := d
  cases tr with
  | none => simp [prepareData, emptyOpView] at hr
  | some trips =>
  cases lo with
  | none => simp [prepareData, emptyOpView] at hr
  | some loads =>
  cases ev with
  | none => simp [prepareData, emptyOpView] at hr
  | some events =>
  cases ro with
  | none => simp [prepareData, emptyOpView] at hr
  | some routes =>
  simp only [prepareData] at hr
  by_cases hempty : trips = [] ∨ loads = [] ∨ events = [] ∨ routes = []
  · rw [if_pos hempty] at hr
    simp [emptyOpView] at hr
  · rw [if_neg hempty] at hr
    simp only at hr
    obtain ⟨r₁, hr₁, hot₁, hev₁⟩ := tmStep_preserves hr
    obtain ⟨r₀, hr₀, hot₀, hev₀⟩ := dmStep_preserves hr₁
    rw [hot₁, hev₁, hot₀, hev₀]
    exact baseRows_on_time hr₀

/-- C2: the derived `on_time` flag of every joined trip row is the total
boolean `onTimeFlag`: true iff both timestamps are present and the actual is
at most 30 minutes after the scheduled; false — never null — whenever either
timestamp is missing.  At a scheduled time `s`, an actual of `s + 29` is
on-time and an actual of `s + 31` is not. -/
theorem claim_C2 :
    (∀ s a : Int, onTimeFlag (some s) (some a) = true ↔ a ≤ s + 30) ∧
    (∀ a : Option Int, onTimeFlag none a = false) ∧
    (∀ s : Option Int, onTimeFlag s none = false) ∧
    (∀ s : Int, onTimeFlag (some s) (some (s + 29)) = true ∧
      onTimeFlag (some s) (some (s + 31)) = false) ∧
    (∀ (monthOf : Int → Int) (d : DataDict) (r : OpRow),
      r ∈ (prepareData monthOf d).rows →
        r.on_time = onTimeFlag (r.event.bind (·.scheduled_datetime))
          (r.event.bind (·.actual_datetime))) := by
  refine ⟨?_, ?_, ?_, ?_, ?_⟩
  · intro s a
    simp [onTimeFlag]
  · intro a
    cases a <;> rfl
  · intro s
    cases s <;> rfl
  · intro s
    constructor
    · simp [onTimeFlag]
    · simp [onTimeFlag]
  · intro monthOf d r hr
    exact prepareData_on_time hr

theorem claim_C2_witness :
    (onTimeFlag (some 600) (some 629) = true) ∧
    (onTimeFlag (some 600) (some 631) = false) ∧
    (onTimeFlag (some 600) none = false) ∧
    (∀ r ∈ (prepareData monthOf0 dictOneTrip).rows,
      r.on_time = onTimeFlag (r.event.bind (·.scheduled_datetime))
        (r.event.bind (·.actual_datetime))) := by
  refine ⟨(claim_C2.1 600 629).mpr (by omega), ?_, claim_C2.2.2.1 (some 600), ?_⟩
  · have h := (claim_C2.2.2.2.1 600).2
    simpa using h
  · intro r hr
    exact claim_C2.2.2.2.2 monthOf0 dictOneTrip r hr

/-! ## C5 — missing core tables give the empty view -/

/-- C5: if any one of `trips`, `loads`, `delivery_events`, `routes` is absent
(`None`) or empty, `_prepare_data` returns the empty dataframe — no partially
joined view — and, being a total function, raises nothing. -/
theorem claim_C5 : ∀ (monthOf : Int → Int) (d : DataDict),
    (d.trips = none ∨ d.trips = some [] ∨ d.loads = none ∨ d.loads = some [] ∨
     d.delivery_events = none ∨ d.delivery_events = some [] ∨
     d.routes = none ∨ d.routes = some []) →
    prepareData monthOf d = emptyOpView := by
  intro monthOf d h
  obtain ⟨tr, lo, ev, ro, dm, tm, dr, si, fp, mr, tk⟩ := d
  simp only at h
  cases tr with
  | none => rfl
  | some trips =>
  cases lo with
  | none => rfl
  | some loads =>
  cases ev with
  | none => rfl
  | some events =>
  cases ro with
  | none => rfl
  | some routes =>
  have hc : trips = [] ∨ loads = [] ∨ events = [] ∨ routes = [] := by
    rcases h with h | h | h | h | h | h | h | h
    · exact absurd h (by simp)
    · exact Or.inl (Option.some_inj.mp h)
    · exact absurd h (by simp)
    · exact Or.inr (Or.inl (Option.some_inj.mp h))
    · exact absurd h (by simp)
    · exact Or.inr (Or.inr (Or.inl (Option.some_inj.mp h)))
    · exact absurd h (by simp)
    · exact Or.inr (Or.inr (Or.inr (Option.some_inj.mp h)))
  simp only [prepareData]
  rw [if_pos hc]

theorem claim_C5_witness :
    prepareData monthOf0 { dictEmpty with trips := some [], loads := some [{ load_id := 1, revenue := 0 }] } = emptyOpView :=
  claim_C5 monthOf0 _ (Or.inr (Or.inl rfl))

end FleetSmart

namespace FleetSmart

/-! ## C3 — score monotonicity -/

theorem roundHalfEven_ge_floor (q : ℚ) : ⌊q⌋ ≤ roundHalfEven q := by
  simp only [roundHalfEven]
  split_ifs <;> omega

theorem roundHalfEven_le_floor_add_one (q : ℚ) : roundHalfEven q ≤ ⌊q⌋ + 1 := by
  simp only [roundHalfEven]
  split_ifs <;> omega

theorem roundHalfEven_mono {x y : ℚ} (h : x ≤ y) :
    roundHalfEven x ≤ roundHalfEven y := by
  have hf : ⌊x⌋ ≤ ⌊y⌋ := Int.floor_mono h
  rcases lt_or_eq_of_le hf with hlt | heq
  · calc roundHalfEven x ≤ ⌊x⌋ + 1 := roundHalfEven_le_floor_add_one x
      _ ≤ ⌊y⌋ := by omega
      _ ≤ roundHalfEven y := roundHalfEven_ge_floor y
  · have hr : x - (⌊x⌋ : ℚ) ≤ y - (⌊x⌋ : ℚ) := by linarith
    simp only [roundHalfEven, ← heq]
    split_ifs <;> first | omega | linarith

theorem roundTo1_mono {x y : ℚ} (h : x ≤ y) : roundTo1 x ≤ roundTo1 y := by
  unfold roundTo1
  have h1 := roundHalfEven_mono (mul_le_mul_of_nonneg_right h (by norm_num : (0:ℚ) ≤ 10))
  have h2 : ((roundHalfEven (x * 10) : ℚ)) ≤ (roundHalfEven (y * 10) : ℚ) := by
    exact_mod_cast h1
  linarith

/-- C3 counterexample: (a) the dashboard efficiency score clips idle hours at
10, so raising idle from 10 to 11 does NOT strictly decrease the score; (b)
the leaderboard score is rounded to one decimal, so strictly raising the
on-time rate from 0.5 to 0.5001 does NOT strictly increase the displayed
score. -/
theorem claim_C3_counterexample :
    ((10 : ℚ) < 11 ∧ effScoreDash 10 7 (9/10) = effScoreDash 11 7 (9/10)) ∧
    ((1/2 : ℚ) < 5001/10000 ∧
      leaderboardScore 0 0 (1/2) 0 0 = leaderboardScore 0 0 (5001/10000) 0 0) := by
  refine ⟨⟨by norm_num, ?_⟩, ⟨by norm_num, ?_⟩⟩
  · norm_num [effScoreDash, min_def]
  · norm_num [leaderboardScore, leaderboardScoreRaw, roundTo1, roundHalfEven]

/-- C3 (amended): holding the other metrics fixed — (1) a strictly larger
on-time rate strictly increases the dashboard efficiency score; (2) a strictly
larger idle value strictly decreases it when the smaller value is below the
10-hour clip bound, and (3) leaves it unchanged when both values are at least
10; (4) a strictly larger on-time rate strictly increases the leaderboard
score before rounding and (5) never decreases the rounded score; (6) a
strictly larger idle value strictly decreases the leaderboard score before
rounding and (7) never increases the rounded score. -/
theorem claim_C3 :
    (∀ idle mpg otd1 otd2 : ℚ, otd1 < otd2 →
      effScoreDash idle mpg otd1 < effScoreDash idle mpg otd2) ∧
    (∀ idle1 idle2 mpg otd : ℚ, idle1 < idle2 → idle1 < 10 →
      effScoreDash idle2 mpg otd < effScoreDash idle1 mpg otd) ∧
    (∀ idle1 idle2 mpg otd : ℚ, 10 ≤ idle1 → 10 ≤ idle2 →
      effScoreDash idle1 mpg otd = effScoreDash idle2 mpg otd) ∧
    (∀ rev mpg otd1 otd2 idle inc : ℚ, otd1 < otd2 →
      leaderboardScoreRaw rev mpg otd1 idle inc < leaderboardScoreRaw rev mpg otd2 idle inc) ∧
    (∀ rev mpg otd1 otd2 idle inc : ℚ, otd1 ≤ otd2 →
      leaderboardScore rev mpg otd1 idle inc ≤ leaderboardScore rev mpg otd2 idle inc) ∧
    (∀ rev mpg otd idle1 idle2 inc : ℚ, idle1 < idle2 →
      leaderboardScoreRaw rev mpg otd idle2 inc < leaderboardScoreRaw rev mpg otd idle1 inc) ∧
    (∀ rev mpg otd idle1 idle2 inc : ℚ, idle1 ≤ idle2 →
      leaderboardScore rev mpg otd idle2 inc ≤ leaderboardScore rev mpg otd idle1 inc) := by
  refine ⟨?_, ?_, ?_, ?_, ?_, ?_, ?_⟩
  · intro idle mpg otd1 otd2 h
    unfold effScoreDash
    linarith
  · intro idle1 idle2 mpg otd h h10
    have hm1 : min idle1 10 = idle1 := min_eq_left (le_of_lt h10)
    have hm2 : idle1 < min idle2 10 := lt_min h h10
    unfold effScoreDash
    rw [hm1]
    nlinarith [hm2]
  · intro idle1 idle2 mpg otd h1 h2
    unfold effScoreDash
    rw [min_eq_right h1, min_eq_right h2]
  · intro rev mpg otd1 otd2 idle inc h
    unfold leaderboardScoreRaw
    linarith
  · intro rev mpg otd1 otd2 idle inc h
    unfold leaderboardScore
    apply roundTo1_mono
    unfold leaderboardScoreRaw
    linarith
  · intro rev mpg otd idle1 idle2 inc h
    unfold leaderboardScoreRaw
    linarith
  · intro rev mpg otd idle1 idle2 inc h
    unfold leaderboardScore
    apply roundTo1_mono
    unfold leaderboardScoreRaw
    linarith

theorem claim_C3_witness :
    (effScoreDash 3 7 (1/2) < effScoreDash 3 7 (3/4)) ∧
    (effScoreDash 4 7 (1/2) < effScoreDash 3 7 (1/2)) ∧
    (effScoreDash 10 7 (1/2) = effScoreDash 12 7 (1/2)) ∧
    (leaderboardScoreRaw 1 2 (1/2) 3 0 < leaderboardScoreRaw 1 2 (3/4) 3 0) ∧
    (leaderboardScore 1 2 (1/2) 3 0 ≤ leaderboardScore 1 2 (3/4) 3 0) ∧
    (leaderboardScoreRaw 1 2 (1/2) 4 0 < leaderboardScoreRaw 1 2 (1/2) 3 0) ∧
    (leaderboardScore 1 2 (1/2) 4 0 ≤ leaderboardScore 1 2 (1/2) 3 0) :=
  ⟨claim_C3.1 3 7 (1/2) (3/4) (by norm_num),
   claim_C3.2.1 3 4 7 (1/2) (by norm_num) (by norm_num),
   claim_C3.2.2.1 10 12 7 (1/2) (by norm_num) (by norm_num),
   claim_C3.2.2.2.1 1 2 (1/2) (3/4) 3 0 (by norm_num),
   claim_C3.2.2.2.2.1 1 2 (1/2) (3/4) 3 0 (by norm_num),
   claim_C3.2.2.2.2.2.1 1 2 (1/2) 3 4 0 (by norm_num),
   claim_C3.2.2.2.2.2.2 1 2 (1/2) 3 4 0 (by norm_num)⟩

end FleetSmart

namespace FleetSmart

/-! ## C4 — alert threshold boundaries -/

/-- C4: in `OperationalAnalyzer.get_alerts`, the critical on-time alert fires
iff the on-time rate is strictly below 85 (85 itself fires nothing critical
from this rule), and the idle-time warning fires iff average idle hours are
strictly above 5 (exactly 5 fires nothing). -/
theorem claim_C4 : ∀ (k : OpKpis) (worst : List RouteStat),
    (((opAlertsFromKpis (some k) worst).any
        (fun a => a.atype == "critical" && a.title == "On-Time Delivery Below Target")) = true ↔
      k.on_time_rate < 85) ∧
    (((opAlertsFromKpis (some k) worst).any
        (fun a => a.atype == "warning" && a.title == "High Average Idle Time")) = true ↔
      k.avg_idle_hours > 5) := by
  intro k worst
  rcases worst with _ | ⟨w, ws⟩ <;>
    · simp only [opAlertsFromKpis]
      split_ifs <;> simp_all [List.any_append]

theorem claim_C4_witness :
    (((opAlertsFromKpis (some (kpisAt 85 5)) []).any
        (fun a => a.atype == "critical" && a.title == "On-Time Delivery Below Target")) = false) ∧
    (((opAlertsFromKpis (some (kpisAt (8499/100) 5)) []).any
        (fun a => a.atype == "critical" && a.title == "On-Time Delivery Below Target")) = true) ∧
    (((opAlertsFromKpis (some (kpisAt 85 5)) []).any
        (fun a => a.atype == "warning" && a.title == "High Average Idle Time")) = false) ∧
    (((opAlertsFromKpis (some (kpisAt 85 (501/100))) []).any
        (fun a => a.atype == "warning" && a.title == "High Average Idle Time")) = true) := by
  refine ⟨?_, ?_, ?_, ?_⟩
  · rw [Bool.eq_false_iff]
    intro hc
    have := ((claim_C4 (kpisAt 85 5) []).1).mp hc
    simp [kpisAt] at this
  · exact ((claim_C4 (kpisAt (8499/100) 5) []).1).mpr (by norm_num [kpisAt])
  · rw [Bool.eq_false_iff]
    intro hc
    have := ((claim_C4 (kpisAt 85 5) []).2).mp hc
    simp [kpisAt] at this
  · exact ((claim_C4 (kpisAt 85 (501/100)) []).2).mpr (by norm_num [kpisAt])

end FleetSmart

namespace FleetSmart

/-! ## C8 — the aggregator's severity sort -/

theorem insertBy_cons {α : Type} {le : α → α → Bool} {a b : α} {bs : List α} :
    insertBy le a (b :: bs) = if le a b then a :: b :: bs else b :: insertBy le a bs := rfl

theorem insertBy_all_le {α : Type} {le : α → α → Bool} {a : α} {v : List α}
    (h : ∀ x ∈ v, le a x = true) : insertBy le a v = a :: v := by
  cases v with
  | nil => rfl
  | cons b bs =>
    rw [insertBy_cons, if_pos (h b (List.mem_cons_self b bs))]

theorem insertBy_append_not {α : Type} {le : α → α → Bool} {a : α} :
    ∀ {u v : List α}, (∀ x ∈ u, le a x = false) →
      insertBy le a (u ++ v) = u ++ insertBy le a v := by
  intro u
  induction u with
  | nil => intro v _; rfl
  | cons b bs ih =>
    intro v h
    rw [List.cons_append, insertBy_cons,
      if_neg (by rw [h b (List.mem_cons_self b bs)]; exact Bool.false_ne_true),
      ih (fun x hx => h x (List.mem_cons_of_mem b hx)), List.cons_append]

theorem sevRank_cases (s : String) :
    sevRank s = 0 ∨ sevRank s = 1 ∨ sevRank s = 2 ∨ sevRank s = 3 := by
  unfold sevRank
  split_ifs <;> simp

theorem rank_of_mem_filter {l : List Alert} {a : Alert} {i : Nat}
    (h : a ∈ l.filter (fun x => sevRank x.atype == i)) : sevRank a.atype = i := by
  have := (List.mem_filter.mp h).2
  simpa using this

/-- The engine's stable sort, characterized: the output is the rank-0 alerts
in order, then rank 1, then rank 2, then rank 3. -/
theorem isortBy_sevLe (l : List Alert) :
    isortBy sevLe l =
      l.filter (fun a => sevRank a.atype == 0) ++
      (l.filter (fun a => sevRank a.atype == 1) ++
      (l.filter (fun a => sevRank a.atype == 2) ++
      l.filter (fun a => sevRank a.atype == 3))) := by
  induction l with
  | nil => rfl
  | cons a l ih =>
    have hstep : isortBy sevLe (a :: l) = insertBy sevLe a (isortBy sevLe l) := rfl
    rw [hstep, ih]
    rcases sevRank_cases a.atype with hk | hk | hk | hk
    · rw [insertBy_all_le (by
        intro x _
        simp [sevLe, hk])]
      simp [List.filter_cons, hk]
    · rw [insertBy_append_not (by
        intro x hx
        simp [sevLe, hk, rank_of_mem_filter hx])]
      rw [insertBy_all_le (by
        intro x hx
        rcases List.mem_append.mp hx with hx | hx
        · simp [sevLe, hk, rank_of_mem_filter hx]
        · rcases List.mem_append.mp hx with hx | hx <;>
            simp [sevLe, hk, rank_of_mem_filter hx])]
      simp [List.filter_cons, hk]
    · rw [← List.append_assoc]
      rw [insertBy_append_not (by
        intro x hx
        rcases List.mem_append.mp hx with hx | hx <;>
          simp [sevLe, hk, rank_of_mem_filter hx])]
      rw [insertBy_all_le (by
        intro x hx
        rcases List.mem_append.mp hx with hx | hx <;>
          simp [sevLe, hk, rank_of_mem_filter hx])]
      simp [List.filter_cons, hk, List.append_assoc]
    · rw [← List.append_assoc, ← List.append_assoc]
      rw [insertBy_append_not (by
        intro x hx
        rcases List.mem_append.mp hx with hx | hx
        · rcases List.mem_append.mp hx with hx | hx <;>
            simp [sevLe, hk, rank_of_mem_filter hx]
        · simp [sevLe, hk, rank_of_mem_filter hx])]
      rw [insertBy_all_le (by
        intro x hx
        simp [sevLe, hk, rank_of_mem_filter hx])]
      simp [List.filter_cons, hk, List.append_assoc]

theorem sevRank_eq_zero_iff {s : String} : sevRank s = 0 ↔ s = "critical" := by
  unfold sevRank
  split_ifs with h1 h2 h3 <;> simp_all

theorem sevRank_eq_one_iff {s : String} : sevRank s = 1 ↔ s = "warning" := by
  unfold sevRank
  split_ifs with h1 h2 h3 <;> simp_all

theorem sevRank_eq_two_iff {s : String} : sevRank s = 2 ↔ s = "info" := by
  unfold sevRank
  split_ifs with h1 h2 h3 <;> simp_all

/-- C8: over arbitrary per-domain alert lists of normalized severities, the
aggregated feed is exactly: all critical alerts, then all warnings, then all
info alerts, each block preserving the relative order of the tagged
concatenation (Financial, Operations, Drivers, Fleet — generation order). -/
theorem claim_C8 : ∀ (now : String) (finl ops drv flt : List DomainAlert),
    (∀ a ∈ taggedAll now finl ops drv flt,
      a.atype = "critical" ∨ a.atype = "warning" ∨ a.atype = "info") →
    combineAlerts now finl ops drv flt =
      (taggedAll now finl ops drv flt).filter (fun a => a.atype == "critical") ++
      (taggedAll now finl ops drv flt).filter (fun a => a.atype == "warning") ++
      (taggedAll now finl ops drv flt).filter (fun a => a.atype == "info") := by
  intro now finl ops drv flt hnorm
  unfold combineAlerts
  rw [isortBy_sevLe]
  have h0 : (taggedAll now finl ops drv flt).filter (fun a => sevRank a.atype == 0) =
      (taggedAll now finl ops drv flt).filter (fun a => a.atype == "critical") := by
    apply List.filter_congr
    intro a _
    simp [sevRank_eq_zero_iff]
  have h1 : (taggedAll now finl ops drv flt).filter (fun a => sevRank a.atype == 1) =
      (taggedAll now finl ops drv flt).filter (fun a => a.atype == "warning") := by
    apply List.filter_congr
    intro a _
    simp [sevRank_eq_one_iff]
  have h2 : (taggedAll now finl ops drv flt).filter (fun a => sevRank a.atype == 2) =
      (taggedAll now finl ops drv flt).filter (fun a => a.atype == "info") := by
    apply List.filter_congr
    intro a _
    simp [sevRank_eq_two_iff]
  have h3 : (taggedAll now finl ops drv flt).filter (fun a => sevRank a.atype == 3) = [] := by
    rw [List.filter_eq_nil_iff]
    intro a ha
    rcases hnorm a ha with h | h | h <;> simp [sevRank, h]
  rw [h0, h1, h2, h3, List.append_nil, List.append_assoc]

theorem claim_C8_witness :
    combineAlerts "t" [alertW] [alertC] [alertI] [alertC] =
      (taggedAll "t" [alertW] [alertC] [alertI] [alertC]).filter
        (fun a => a.atype == "critical") ++
      (taggedAll "t" [alertW] [alertC] [alertI] [alertC]).filter
        (fun a => a.atype == "warning") ++
      (taggedAll "t" [alertW] [alertC] [alertI] [alertC]).filter
        (fun a => a.atype == "info") :=
  claim_C8 "t" [alertW] [alertC] [alertI] [alertC] (by decide)

end FleetSmart

namespace FleetSmart

/-! ## C10 — thresholds do not influence the alert feed -/

theorem setThreshold_data (e : AlertsEngine) (k : String) (v : ℚ) :
    (setThreshold e k v).data = e.data := by
  unfold setThreshold
  split_ifs <;> rfl

theorem applyThresholdUpdates_data :
    ∀ (us : List (String × ℚ)) (e : AlertsEngine),
      (applyThresholdUpdates e us).data = e.data := by
  intro us
  induction us with
  | nil => intro e; rfl
  | cons u us ih =>
    intro e
    show (applyThresholdUpdates (setThreshold e u.1 u.2) us).data = e.data
    rw [ih, setThreshold_data]

/-- C10: the per-domain alert generators read only the engine's data
dictionary and compare KPIs against their own fixed constants, so
`get_all_alerts` is invariant under any `set_threshold` call and under any
two sequences of such calls. -/
theorem claim_C10 : ∀ (monthOf : Int → Int) (currentYear : Int) (now : String)
    (e : AlertsEngine) (k : String) (v : ℚ) (us1 us2 : List (String × ℚ)),
    getAllAlerts monthOf currentYear now (setThreshold e k v) =
      getAllAlerts monthOf currentYear now e ∧
    getAllAlerts monthOf currentYear now (applyThresholdUpdates e us1) =
      getAllAlerts monthOf currentYear now (applyThresholdUpdates e us2) := by
  intro monthOf currentYear now e k v us1 us2
  constructor
  · unfold getAllAlerts
    rw [setThreshold_data]
  · unfold getAllAlerts
    rw [applyThresholdUpdates_data, applyThresholdUpdates_data]

theorem claim_C10_witness :
    ((setThreshold (mkEngine dictOneTrip) "idle_hours_warning" 7).thresholds ≠
      (mkEngine dictOneTrip).thresholds) ∧
    getAllAlerts monthOf0 2026 "t" (setThreshold (mkEngine dictOneTrip) "idle_hours_warning" 7) =
      getAllAlerts monthOf0 2026 "t" (mkEngine dictOneTrip) := by
  constructor
  · decide
  · exact (claim_C10 monthOf0 2026 "t" (mkEngine dictOneTrip) "idle_hours_warning" 7 [] []).1

end FleetSmart
